import Mathlib

/-!
Shallow embedding of `fastmot/mot.py` (class `MOT`), the frame-cadence
orchestrator of the FastMOT repository.

Modelling choices:
* Frames, boxes and embeddings are opaque payloads, embedded as `Nat`.
* The external collaborators (detector, feature extractor, per-stream
  `MultiTracker` mutation methods) are oracle functions collected in an
  `Env` record; the orchestrator under verification is the code of
  `MOT.__init__`, `MOT.step`, `MOT.reset`, `MOT.visible_tracks` and
  `MOT._draw` only, so every collaborator call is recorded as an `Event`
  in an explicit trace, which is what the temporal/ordering claims are
  stated about.
* Python exceptions (a failing `postprocess` join, an `IndexError` from a
  list subscript, the `assert` in `__init__`) abort the surrounding call;
  they are embedded by returning `Option PyError` next to the state the
  object holds at the moment the exception escapes (in-place mutations
  performed before the exception persist, exactly as in Python).
* A Python generator expression (returned by `visible_tracks`) is a
  one-shot iterator; it is embedded as `PyGenerator`, the eagerly
  computed list of items it will yield, consumed at most once.
-/

namespace FastMOT

/-- Opaque video frame payload. -/
abbrev Frame := Nat

/-- Opaque bounding-box payload (a `tlbr` row in the source). -/
abbrev Box := Nat

/-- Opaque appearance-embedding payload. -/
abbrev Emb := Nat

/-- One track held by a stream's tracker; `confirmed`/`active` are the two
flags read by `MOT.visible_tracks`. -/
structure Track where
  confirmed : Bool
  active : Bool
  payload : Nat
deriving DecidableEq, Repr

/-- One entry of a `DetectionSet`; `tlbr` is the box column that
`MOT.step` passes to `extract_async`. -/
structure Detection where
  tlbr : Box
  label : Nat
  conf : Nat
deriving DecidableEq, Repr

/-- State of one stream's `MultiTracker` instance: the seeded inter-frame
interval and the ordered `tracks.values()` of its track dict. -/
structure TrackerState where
  cap_dt : Int
  tracks : List Track
deriving DecidableEq, Repr

/-- Python exceptions that can escape the embedded methods. -/
inductive PyError where
  | indexError
  | assertionError
  | stageFailure
deriving DecidableEq, Repr

/-- One collaborator invocation made by `MOT.step`, recorded in program
order; the first argument of every constructor is the stream index. -/
inductive Event where
  | detectSync (i : Nat) (f : Frame)
  | trackerInit (i : Nat) (f : Frame) (dets : List Detection)
  | detectAsync (i : Nat) (f : Frame)
  | computeFlow (i : Nat) (f : Frame)
  | detectJoin (i : Nat) (dets : List Detection)
  | extractAsync (i : Nat) (f : Frame) (boxes : List Box)
  | applyKalman (i : Nat)
  | extractJoin (i : Nat) (embs : List Emb)
  | trackerUpdate (i : Nat) (fc : Nat) (dets : List Detection) (embs : List Emb)
  | trackOnly (i : Nat) (f : Frame)
  | render (i : Nat) (f : Frame) (dets : List Detection)
deriving DecidableEq, Repr

/-- Stream index an event belongs to. -/
def Event.stream : Event → Nat
  | .detectSync i _ => i
  | .trackerInit i _ _ => i
  | .detectAsync i _ => i
  | .computeFlow i _ => i
  | .detectJoin i _ => i
  | .extractAsync i _ _ => i
  | .applyKalman i => i
  | .extractJoin i _ => i
  | .trackerUpdate i _ _ _ => i
  | .trackOnly i _ => i
  | .render i _ _ => i

/-- Oracle behaviour of the external collaborators.  `detect` is the
synchronous `self.detector(frame)` call of the cold-start path;
`detect_postprocess f` is the joined result of `detect_async f` followed by
`postprocess()`; `extract_postprocess f boxes` is the joined result of
`extract_async(f, boxes)` followed by `postprocess()`; an `error` value
means the join raised.  The `t*` fields are the in-place mutations the
`MultiTracker` methods perform on the stream's tracker state. -/
structure Env where
  detect : Frame → List Detection
  detect_postprocess : Frame → Except Unit (List Detection)
  extract_postprocess : Frame → List Box → Except Unit (List Emb)
  tInit : TrackerState → Frame → List Detection → TrackerState
  tComputeFlow : TrackerState → Frame → TrackerState
  tApplyKalman : TrackerState → TrackerState
  tUpdate : TrackerState → Nat → List Detection → List Emb → TrackerState
  tTrack : TrackerState → Frame → TrackerState

/-- Environments in which both inference joins always succeed. -/
def EnvOk (env : Env) : Prop :=
  (∀ f, ∃ dets, env.detect_postprocess f = Except.ok dets) ∧
  (∀ f bs, ∃ embs, env.extract_postprocess f bs = Except.ok embs)

/-- State of a `MOT` object: the fields assigned by `MOT.__init__` that the
embedded methods read or write (`self.detector`, `self.extractor` and
`self.visualizers` are collaborator handles, represented by `Env` and the
event trace instead). -/
@[ext]
structure MOT where
  size : Nat × Nat
  detector_frame_skip : Nat
  draw : Bool
  number_of_trackers : Nat
  trackers : List TrackerState
  frame_counts : List Nat
deriving DecidableEq, Repr

/-- Constructor `MOT.__init__`: `assert detector_frame_skip >= 1`, then one
tracker, one zero frame count and one visualizer per `number_of_trackers`.
`t0` stands for the state `MultiTracker(...)` is constructed with. -/
def MOT.construct (size : Nat × Nat) (detector_frame_skip : Int) (draw : Bool)
    (number_of_trackers : Nat) (t0 : TrackerState) : Except PyError MOT :=
  if 1 ≤ detector_frame_skip then
    Except.ok
      { size := size
        detector_frame_skip := detector_frame_skip.toNat
        draw := draw
        number_of_trackers := number_of_trackers
        trackers := List.replicate number_of_trackers t0
        frame_counts := List.replicate number_of_trackers 0 }
  else Except.error PyError.assertionError

/-- Body of the per-stream branch of `MOT.step` (lines 141-170 of
`mot.py`) for stream `i` holding frame count `fc` and tracker `t`, on a
non-null frame `f`.  Returns the new frame count, the new tracker state,
the trace of collaborator calls, and the exception that escaped, if any.
On an exception the frame count is not advanced and no render happens,
matching the Python control flow. -/
def stepBody (env : Env) (P : Nat) (draw : Bool) (i : Nat) (fc : Nat)
    (t : TrackerState) (f : Frame) :
    Nat × TrackerState × List Event × Option PyError :=
  if fc = 0 then
    let detections := env.detect f
    let t1 := env.tInit t f detections
    (fc + 1, t1,
      [Event.detectSync i f, Event.trackerInit i f detections]
        ++ (if draw then [Event.render i f detections] else []), none)
  else if fc % P = 0 then
    let t1 := env.tComputeFlow t f
    match env.detect_postprocess f with
    | Except.error _ =>
        (fc, t1, [Event.detectAsync i f, Event.computeFlow i f],
          some PyError.stageFailure)
    | Except.ok detections =>
        let boxes := detections.map Detection.tlbr
        let t2 := env.tApplyKalman t1
        match env.extract_postprocess f boxes with
        | Except.error _ =>
            (fc, t2,
              [Event.detectAsync i f, Event.computeFlow i f,
               Event.detectJoin i detections, Event.extractAsync i f boxes,
               Event.applyKalman i], some PyError.stageFailure)
        | Except.ok embeddings =>
            let t3 := env.tUpdate t2 fc detections embeddings
            (fc + 1, t3,
              [Event.detectAsync i f, Event.computeFlow i f,
               Event.detectJoin i detections, Event.extractAsync i f boxes,
               Event.applyKalman i, Event.extractJoin i embeddings,
               Event.trackerUpdate i fc detections embeddings]
                ++ (if draw then [Event.render i f detections] else []), none)
  else
    let t1 := env.tTrack t f
    (fc + 1, t1,
      [Event.trackOnly i f]
        ++ (if draw then [Event.render i f []] else []), none)

/-- Loop of `MOT.step` over the remaining frames, `i` being the absolute
position of the head frame.  A `none` frame skips the body entirely; the
two list subscripts raise `indexError` when out of range (on malformed
states only; the subscript checks are hoisted to the top of the body). -/
def stepList (env : Env) (s : MOT) (i : Nat) :
    List (Option Frame) → MOT × List Event × Option PyError
  | [] => (s, [], none)
  | none :: rest => stepList env s (i + 1) rest
  | some f :: rest =>
    match s.frame_counts[i]?, s.trackers[i]? with
    | some fc, some t =>
      match stepBody env s.detector_frame_skip s.draw i fc t f with
      | (fc', t', evs, some e) =>
          ({ s with frame_counts := s.frame_counts.set i fc',
                    trackers := s.trackers.set i t' }, evs, some e)
      | (fc', t', evs, none) =>
          let s' : MOT :=
            { s with frame_counts := s.frame_counts.set i fc',
                     trackers := s.trackers.set i t' }
          match stepList env s' (i + 1) rest with
          | (s'', evs', err) => (s'', evs ++ evs', err)
    | _, _ => (s, [], some PyError.indexError)

/-- Method `MOT.step(*frames)`. -/
def MOT.step (env : Env) (s : MOT) (frames : List (Option Frame)) :
    MOT × List Event × Option PyError :=
  stepList env s 0 frames

/-- Configuration record passed positionally to `MOT.reset`; only its
`cap_dt` attribute is read. -/
structure StreamConfig where
  cap_dt : Int
deriving DecidableEq, Repr

/-- Modelled from the spec: `MultiTracker.reset(cap_dt)` lives in
`fastmot/tracker.py`, which is not part of the given sources; per §4.2 of
the spec it leaves ``a freshly constructed TrackerState seeded with that
stream's timing parameters``, i.e. an empty track set carrying `cap_dt`. -/
def trackerReset (cap_dt : Int) : TrackerState :=
  { cap_dt := cap_dt, tracks := [] }

/-- Loop of `MOT.reset`: `for i in range(number_of_trackers)`, reset
tracker `i` with `streams[i].cap_dt` and append `0` to the freshly
cleared `frame_counts`; a missing subscript raises `indexError`, keeping
the partial mutations made so far. -/
def resetLoop (streams : List StreamConfig) (trackers : List TrackerState)
    (fcs : List Nat) (i : Nat) :
    Nat → List TrackerState × List Nat × Option PyError
  | 0 => (trackers, fcs, none)
  | todo + 1 =>
    match trackers[i]?, streams[i]? with
    | some _, some cfg =>
        resetLoop streams (trackers.set i (trackerReset cfg.cap_dt))
          (fcs ++ [0]) (i + 1) todo
    | _, _ => (trackers, fcs, some PyError.indexError)

/-- Method `MOT.reset(*streams)`: clears `frame_counts` and runs the reset
loop over `range(number_of_trackers)`. -/
def MOT.reset (s : MOT) (streams : List StreamConfig) : MOT × Option PyError :=
  match resetLoop streams s.trackers [] 0 s.number_of_trackers with
  | (ts, fcs, err) =>
      ({ s with trackers := ts, frame_counts := fcs }, err)

/-- Python generator object, embedded as the (eagerly computed) list of
items it will yield; consuming it exhausts it. -/
structure PyGenerator (α : Type) where
  remaining : List α
deriving DecidableEq, Repr

instance {α : Type} : Inhabited (PyGenerator α) := ⟨⟨[]⟩⟩

/-- Full traversal of a generator (Python `list(gen)` or a `for` loop):
yields whatever is left and leaves the generator exhausted. -/
def PyGenerator.consume {α : Type} (g : PyGenerator α) : List α × PyGenerator α :=
  (g.remaining, ⟨[]⟩)

/-- Method `MOT.visible_tracks()`: one generator per tracker filtering its
tracks dict for `track.confirmed and track.active`.  The method body only
reads `self`, so it is embedded as a pure function of the state.  The
Python loop runs over `range(number_of_trackers)` subscripting `trackers`;
`take` renders that faithfully on all well-formed states (where the two
agree in length; on malformed states Python would raise instead). -/
def MOT.visible_tracks (s : MOT) : List (PyGenerator Track) :=
  (s.trackers.take s.number_of_trackers).map fun t =>
    { remaining := t.tracks.filter fun tr => tr.confirmed && tr.active }

/-- Cadence phase of `frame_count = fc` at cadence period `P`, as the spec
derives it. -/
inductive CadencePhase where
  | coldStart
  | detectCycle
  | trackOnly
deriving DecidableEq, Repr

/-- Spec-side phase function: `ColdStart` at 0, `DetectCycle` at positive
multiples of the period, `TrackOnly` otherwise. -/
def phaseOf (fc P : Nat) : CadencePhase :=
  if fc = 0 then CadencePhase.coldStart
  else if fc % P = 0 then CadencePhase.detectCycle
  else CadencePhase.trackOnly

/-- Detects a cold-start detector call of stream `i`. -/
def Event.isDetectSyncOf (i : Nat) : Event → Bool
  | .detectSync j _ => j == i
  | _ => false

/-- Detects an asynchronous detection issue of stream `i`. -/
def Event.isDetectAsyncOf (i : Nat) : Event → Bool
  | .detectAsync j _ => j == i
  | _ => false

/-- Detects a track-only tracker call of stream `i`. -/
def Event.isTrackOnlyOf (i : Nat) : Event → Bool
  | .trackOnly j _ => j == i
  | _ => false

/-- Execution path stream `i` took in a trace, recovered from which
collaborator entry point was used. -/
def pathTaken (evs : List Event) (i : Nat) : Option CadencePhase :=
  if evs.any (Event.isDetectSyncOf i) then some CadencePhase.coldStart
  else if evs.any (Event.isDetectAsyncOf i) then some CadencePhase.detectCycle
  else if evs.any (Event.isTrackOnlyOf i) then some CadencePhase.trackOnly
  else none

theorem stepBody_stream_all (env : Env) (P : Nat) (draw : Bool) (i fc : Nat)
    (t : TrackerState) (f : Frame) :
    ((stepBody env P draw i fc t f).2.2.1).all (fun e => e.stream == i) = true := by
  unfold stepBody
  by_cases h0 : fc = 0
  · cases draw <;> simp [h0, Event.stream]
  by_cases h1 : fc % P = 0
  · rcases hd : env.detect_postprocess f with e1 | dets
    · simp [h0, h1, hd, Event.stream]
    rcases hx : env.extract_postprocess f (dets.map Detection.tlbr) with e2 | embs <;>
      cases draw <;> simp [h0, h1, hd, hx, Event.stream]
  · cases draw <;> simp [h0, h1, Event.stream]

theorem stepBody_stream (env : Env) (P : Nat) (draw : Bool) (i fc : Nat)
    (t : TrackerState) (f : Frame) :
    ∀ e ∈ (stepBody env P draw i fc t f).2.2.1, e.stream = i := by
  intro e he
  have h := stepBody_stream_all env P draw i fc t f
  have := List.all_eq_true.1 h e he
  simpa using this

theorem stepBody_ok_of (env : Env) (P : Nat) (draw : Bool)
    (i fc : Nat) (t : TrackerState) (f : Frame)
    (hdet : ∃ d, env.detect_postprocess f = Except.ok d)
    (hext : ∀ bs, ∃ e, env.extract_postprocess f bs = Except.ok e) :
    (stepBody env P draw i fc t f).1 = fc + 1 ∧
    (stepBody env P draw i fc t f).2.2.2 = none := by
  unfold stepBody
  by_cases h0 : fc = 0
  · simp [h0]
  by_cases h1 : fc % P = 0
  · obtain ⟨dets, hd⟩ := hdet
    obtain ⟨embs, hx⟩ := hext (dets.map Detection.tlbr)
    simp [h0, h1, hd, hx]
  · simp [h0, h1]

theorem stepBody_ok (env : Env) (henv : EnvOk env) (P : Nat) (draw : Bool)
    (i fc : Nat) (t : TrackerState) (f : Frame) :
    (stepBody env P draw i fc t f).1 = fc + 1 ∧
    (stepBody env P draw i fc t f).2.2.2 = none :=
  stepBody_ok_of env P draw i fc t f (henv.1 f) (fun bs => henv.2 f bs)

theorem stepBody_fail_fc (env : Env) (P : Nat) (draw : Bool)
    (i fc : Nat) (t : TrackerState) (f : Frame) (e : PyError)
    (hfail : (stepBody env P draw i fc t f).2.2.2 = some e) :
    (stepBody env P draw i fc t f).1 = fc := by
  unfold stepBody at hfail ⊢
  by_cases h0 : fc = 0
  · simp [h0] at hfail
  by_cases h1 : fc % P = 0
  · rcases hd : env.detect_postprocess f with e1 | dets
    · simp [h0, h1, hd]
    rcases hx : env.extract_postprocess f (dets.map Detection.tlbr) with e2 | embs
    · simp [h0, h1, hd, hx]
    · rw [h1] at hfail
      simp [h0, h1, hd, hx] at hfail
  · simp [h0, h1] at hfail

theorem pathTaken_stepBody (env : Env) (P : Nat) (draw : Bool) (i fc : Nat)
    (t : TrackerState) (f : Frame) :
    pathTaken (stepBody env P draw i fc t f).2.2.1 i = some (phaseOf fc P) := by
  unfold stepBody phaseOf pathTaken
  by_cases h0 : fc = 0
  · cases draw <;>
      simp [h0, Event.isDetectSyncOf, Event.isDetectAsyncOf, Event.isTrackOnlyOf]
  by_cases h1 : fc % P = 0
  · rcases hd : env.detect_postprocess f with e1 | dets
    · simp [h0, h1, hd, Event.isDetectSyncOf, Event.isDetectAsyncOf,
        Event.isTrackOnlyOf]
    rcases hx : env.extract_postprocess f (dets.map Detection.tlbr) with e2 | embs <;>
      cases draw <;>
      simp [h0, h1, hd, hx, Event.isDetectSyncOf, Event.isDetectAsyncOf,
        Event.isTrackOnlyOf]
  · cases draw <;>
      simp [h0, h1, Event.isDetectSyncOf, Event.isDetectAsyncOf,
        Event.isTrackOnlyOf]

theorem stepList_misc (env : Env) :
    ∀ (fs : List (Option Frame)) (s : MOT) (i0 : Nat),
      (stepList env s i0 fs).1.size = s.size ∧
      (stepList env s i0 fs).1.detector_frame_skip = s.detector_frame_skip ∧
      (stepList env s i0 fs).1.draw = s.draw ∧
      (stepList env s i0 fs).1.number_of_trackers = s.number_of_trackers ∧
      (stepList env s i0 fs).1.frame_counts.length = s.frame_counts.length ∧
      (stepList env s i0 fs).1.trackers.length = s.trackers.length := by
  intro fs
  induction fs with
  | nil => intro s i0; simp [stepList]
  | cons hd tl ih =>
    intro s i0
    cases hd with
    | none => simpa only [stepList] using ih s (i0 + 1)
    | some f =>
      rcases hfc : s.frame_counts[i0]? with _ | fc <;>
        rcases ht : s.trackers[i0]? with _ | t <;>
        simp only [stepList, hfc, ht]
      · simp
      · simp
      · simp
      rcases hsb : stepBody env s.detector_frame_skip s.draw i0 fc t f
        with ⟨fc', t', evs, err⟩
      cases err with
      | some e => simp [List.length_set]
      | none =>
        have := ih
          { s with frame_counts := s.frame_counts.set i0 fc',
                   trackers := s.trackers.set i0 t' } (i0 + 1)
        simpa [List.length_set] using this

theorem stepList_getElem_lt (env : Env) :
    ∀ (fs : List (Option Frame)) (s : MOT) (i0 j : Nat), j < i0 →
      (stepList env s i0 fs).1.frame_counts[j]? = s.frame_counts[j]? ∧
      (stepList env s i0 fs).1.trackers[j]? = s.trackers[j]? := by
  intro fs
  induction fs with
  | nil => intro s i0 j hj; simp [stepList]
  | cons hd tl ih =>
    intro s i0 j hj
    cases hd with
    | none => exact ih s (i0 + 1) j (by omega)
    | some f =>
      rcases hfc : s.frame_counts[i0]? with _ | fc <;>
        rcases ht : s.trackers[i0]? with _ | t <;>
        simp only [stepList, hfc, ht]
      · simp
      · simp
      · simp
      rcases hsb : stepBody env s.detector_frame_skip s.draw i0 fc t f
        with ⟨fc', t', evs, err⟩
      have hne : i0 ≠ j := by omega
      cases err with
      | some e => simp [List.getElem?_set_ne hne]
      | none =>
        have := ih
          { s with frame_counts := s.frame_counts.set i0 fc',
                   trackers := s.trackers.set i0 t' } (i0 + 1) j (by omega)
        simpa [List.getElem?_set_ne hne] using this

theorem stepList_getElem_ge (env : Env) :
    ∀ (fs : List (Option Frame)) (s : MOT) (i0 j : Nat), i0 + fs.length ≤ j →
      (stepList env s i0 fs).1.frame_counts[j]? = s.frame_counts[j]? ∧
      (stepList env s i0 fs).1.trackers[j]? = s.trackers[j]? := by
  intro fs
  induction fs with
  | nil => intro s i0 j hj; simp [stepList]
  | cons hd tl ih =>
    intro s i0 j hj
    simp only [List.length_cons] at hj
    cases hd with
    | none => exact ih s (i0 + 1) j (by omega)
    | some f =>
      rcases hfc : s.frame_counts[i0]? with _ | fc <;>
        rcases ht : s.trackers[i0]? with _ | t <;>
        simp only [stepList, hfc, ht]
      · simp
      · simp
      · simp
      rcases hsb : stepBody env s.detector_frame_skip s.draw i0 fc t f
        with ⟨fc', t', evs, err⟩
      have hne : i0 ≠ j := by omega
      cases err with
      | some e => simp [List.getElem?_set_ne hne]
      | none =>
        have := ih
          { s with frame_counts := s.frame_counts.set i0 fc',
                   trackers := s.trackers.set i0 t' } (i0 + 1) j (by omega)
        simpa [List.getElem?_set_ne hne] using this

theorem stepList_stream_ge (env : Env) :
    ∀ (fs : List (Option Frame)) (s : MOT) (i0 : Nat),
      ∀ e ∈ (stepList env s i0 fs).2.1, i0 ≤ e.stream := by
  intro fs
  induction fs with
  | nil => intro s i0 e he; simp [stepList] at he
  | cons hd tl ih =>
    intro s i0 e he
    cases hd with
    | none =>
      have := ih s (i0 + 1) e (by simpa only [stepList] using he)
      omega
    | some f =>
      rcases hfc : s.frame_counts[i0]? with _ | fc <;>
        rcases ht : s.trackers[i0]? with _ | t <;>
        simp only [stepList, hfc, ht] at he
      · simp at he
      · simp at he
      · simp at he
      rcases hsb : stepBody env s.detector_frame_skip s.draw i0 fc t f
        with ⟨fc', t', evs, err⟩
      rw [hsb] at he
      have hevs : ∀ e' ∈ evs, e'.stream = i0 := by
        intro e' he'
        have := stepBody_stream env s.detector_frame_skip s.draw i0 fc t f e'
        rw [hsb] at this
        exact this he'
      cases err with
      | some er =>
        simp only at he
        exact le_of_eq (hevs e he).symm
      | none =>
        simp only [List.mem_append] at he
        rcases he with he | he
        · exact le_of_eq (hevs e he).symm
        · have := ih
            { s with frame_counts := s.frame_counts.set i0 fc',
                     trackers := s.trackers.set i0 t' } (i0 + 1) e he
          omega

theorem stepList_err_none (env : Env) (henv : EnvOk env) :
    ∀ (fs : List (Option Frame)) (s : MOT) (i0 : Nat),
      i0 + fs.length ≤ s.frame_counts.length →
      i0 + fs.length ≤ s.trackers.length →
      (stepList env s i0 fs).2.2 = none := by
  intro fs
  induction fs with
  | nil => intro s i0 h1 h2; simp [stepList]
  | cons hd tl ih =>
    intro s i0 h1 h2
    simp only [List.length_cons] at h1 h2
    cases hd with
    | none => exact ih s (i0 + 1) (by omega) (by omega)
    | some f =>
      have hfc' : i0 < s.frame_counts.length := by omega
      have ht' : i0 < s.trackers.length := by omega
      rcases hfc : s.frame_counts[i0]? with _ | fc
      · rw [List.getElem?_eq_getElem hfc'] at hfc; simp at hfc
      rcases ht : s.trackers[i0]? with _ | t
      · rw [List.getElem?_eq_getElem ht'] at ht; simp at ht
      simp only [stepList, hfc, ht]
      rcases hsb : stepBody env s.detector_frame_skip s.draw i0 fc t f
        with ⟨fc', t', evs, err⟩
      have hok := stepBody_ok env henv s.detector_frame_skip s.draw i0 fc t f
      rw [hsb] at hok
      obtain ⟨hfc1, herr⟩ := hok
      simp only at herr
      subst herr
      have := ih
        { s with frame_counts := s.frame_counts.set i0 fc',
                 trackers := s.trackers.set i0 t' } (i0 + 1)
        (by simp [List.length_set]; omega) (by simp [List.length_set]; omega)
      simpa using this

theorem stepList_slot (env : Env) (henv : EnvOk env) :
    ∀ (fs : List (Option Frame)) (s : MOT) (i0 k : Nat),
      i0 + fs.length ≤ s.frame_counts.length →
      i0 + fs.length ≤ s.trackers.length →
      (fs[k]? = some none →
        (stepList env s i0 fs).1.frame_counts[i0 + k]? = s.frame_counts[i0 + k]? ∧
        (stepList env s i0 fs).1.trackers[i0 + k]? = s.trackers[i0 + k]? ∧
        (stepList env s i0 fs).2.1.filter (fun e => e.stream == i0 + k) = []) ∧
      (∀ f fc t, fs[k]? = some (some f) → s.frame_counts[i0 + k]? = some fc →
          s.trackers[i0 + k]? = some t →
        (stepList env s i0 fs).1.frame_counts[i0 + k]? = some (fc + 1) ∧
        (stepList env s i0 fs).1.trackers[i0 + k]? =
          some (stepBody env s.detector_frame_skip s.draw (i0 + k) fc t f).2.1 ∧
        (stepList env s i0 fs).2.1.filter (fun e => e.stream == i0 + k) =
          (stepBody env s.detector_frame_skip s.draw (i0 + k) fc t f).2.2.1) := by
  intro fs
  induction fs with
  | nil =>
    intro s i0 k h1 h2
    constructor
    · intro h; simp at h
    · intro f fc t h; simp at h
  | cons hd tl ih =>
    intro s i0 k h1 h2
    simp only [List.length_cons] at h1 h2
    cases k with
    | zero =>
      simp only [Nat.add_zero]
      cases hd with
      | none =>
        constructor
        · intro _
          have hlt := stepList_getElem_lt env tl s (i0 + 1) i0 (by omega)
          refine ⟨?_, ?_, ?_⟩
          · simpa only [stepList] using hlt.1
          · simpa only [stepList] using hlt.2
          · simp only [stepList]
            refine List.filter_eq_nil_iff.2 ?_
            intro a ha
            have := stepList_stream_ge env tl s (i0 + 1) a ha
            simp only [beq_iff_eq]
            omega
        · intro f fc t hf
          simp at hf
      | some f0 =>
        constructor
        · intro hf; simp at hf
        · intro f fc t hf hfc ht
          have hff : f = f0 := by
            simp only [List.getElem?_cons_zero, Option.some.injEq] at hf
            exact hf.symm
          subst hff
          rcases hsb : stepBody env s.detector_frame_skip s.draw i0 fc t f
            with ⟨fc', t', evs, err⟩
          have hok := stepBody_ok env henv s.detector_frame_skip s.draw i0 fc t f
          rw [hsb] at hok
          obtain ⟨hfc1, herr⟩ := hok
          simp only at hfc1 herr
          subst herr
          subst hfc1
          simp only [stepList, hfc, ht, hsb]
          rcases hrec : stepList env
            { s with frame_counts := s.frame_counts.set i0 (fc + 1),
                     trackers := s.trackers.set i0 t' } (i0 + 1) tl
            with ⟨s'', evs', err'⟩
          have hlt := stepList_getElem_lt env tl
            { s with frame_counts := s.frame_counts.set i0 (fc + 1),
                     trackers := s.trackers.set i0 t' } (i0 + 1) i0 (by omega)
          rw [hrec] at hlt
          have hstr := stepList_stream_ge env tl
            { s with frame_counts := s.frame_counts.set i0 (fc + 1),
                     trackers := s.trackers.set i0 t' } (i0 + 1)
          rw [hrec] at hstr
          refine ⟨?_, ?_, ?_⟩
          · rw [hlt.1]
            simp only
            exact List.getElem?_set_eq (by omega)
          · rw [hlt.2]
            simp only
            rw [List.getElem?_set_eq (by omega)]
          · rw [List.filter_append]
            have hev : List.filter (fun e => e.stream == i0) evs = evs := by
              refine List.filter_eq_self.2 ?_
              intro a ha
              have := stepBody_stream env s.detector_frame_skip s.draw i0 fc t f a
              rw [hsb] at this
              simp only [beq_iff_eq]
              exact this ha
            have hev' : List.filter (fun e => e.stream == i0) evs' = [] := by
              refine List.filter_eq_nil_iff.2 ?_
              intro a ha
              have := hstr a ha
              simp only [beq_iff_eq]
              omega
            rw [hev, hev', List.append_nil]
    | succ k' =>
      have harith : i0 + (k' + 1) = (i0 + 1) + k' := by omega
      rw [harith]
      cases hd with
      | none =>
        simp only [stepList, List.getElem?_cons_succ]
        exact ih s (i0 + 1) k' (by omega) (by omega)
      | some f0 =>
        have hfc0' : i0 < s.frame_counts.length := by omega
        have ht0' : i0 < s.trackers.length := by omega
        rcases hfc0 : s.frame_counts[i0]? with _ | fc0
        · rw [List.getElem?_eq_getElem hfc0'] at hfc0; simp at hfc0
        rcases ht0 : s.trackers[i0]? with _ | t0
        · rw [List.getElem?_eq_getElem ht0'] at ht0; simp at ht0
        rcases hsb : stepBody env s.detector_frame_skip s.draw i0 fc0 t0 f0
          with ⟨fc', t', evs, err⟩
        have hok := stepBody_ok env henv s.detector_frame_skip s.draw i0 fc0 t0 f0
        rw [hsb] at hok
        obtain ⟨hfc1, herr⟩ := hok
        simp only at hfc1 herr
        subst herr
        subst hfc1
        simp only [stepList, hfc0, ht0, hsb, List.getElem?_cons_succ]
        have hne : i0 ≠ i0 + 1 + k' := by omega
        have hih := ih
          { s with frame_counts := s.frame_counts.set i0 (fc0 + 1),
                   trackers := s.trackers.set i0 t' } (i0 + 1) k'
          (by simp only [List.length_set]; omega)
          (by simp only [List.length_set]; omega)
        simp only [List.getElem?_set_ne hne] at hih
        rcases hrec : stepList env
          { s with frame_counts := s.frame_counts.set i0 (fc0 + 1),
                   trackers := s.trackers.set i0 t' } (i0 + 1) tl
          with ⟨s'', evs', err'⟩
        rw [hrec] at hih
        have hevnil : List.filter (fun e => e.stream == i0 + 1 + k') evs = [] := by
          refine List.filter_eq_nil_iff.2 ?_
          intro a ha
          have := stepBody_stream env s.detector_frame_skip s.draw i0 fc0 t0 f0 a
          rw [hsb] at this
          have := this ha
          simp only [beq_iff_eq]
          omega
        constructor
        · intro htl
          obtain ⟨ha, hb, hc⟩ := hih.1 htl
          refine ⟨ha, hb, ?_⟩
          rw [List.filter_append, hevnil, hc, List.nil_append]
        · intro f fc t htl hfc ht
          obtain ⟨ha, hb, hc⟩ := hih.2 f fc t htl hfc ht
          refine ⟨ha, ?_, ?_⟩
          · simpa only using hb
          · rw [List.filter_append, hevnil, hc, List.nil_append]

theorem stepList_fail (env : Env) :
    ∀ (fs : List (Option Frame)) (s : MOT) (i0 k : Nat) (f : Frame)
      (fc : Nat) (t : TrackerState),
      i0 + fs.length ≤ s.frame_counts.length →
      i0 + fs.length ≤ s.trackers.length →
      (∀ j f', j < k → fs[j]? = some (some f') →
        (∃ d, env.detect_postprocess f' = Except.ok d) ∧
        (∀ bs, ∃ e, env.extract_postprocess f' bs = Except.ok e)) →
      fs[k]? = some (some f) →
      s.frame_counts[i0 + k]? = some fc →
      s.trackers[i0 + k]? = some t →
      (stepBody env s.detector_frame_skip s.draw (i0 + k) fc t f).2.2.2 =
        some PyError.stageFailure →
      (stepList env s i0 fs).2.2 = some PyError.stageFailure ∧
      ((stepList env s i0 fs).1.frame_counts[i0 + k]? = some fc ∧
       (stepList env s i0 fs).1.trackers[i0 + k]? =
         some (stepBody env s.detector_frame_skip s.draw (i0 + k) fc t f).2.1 ∧
       (stepList env s i0 fs).2.1.filter (fun e => e.stream == i0 + k) =
         (stepBody env s.detector_frame_skip s.draw (i0 + k) fc t f).2.2.1) ∧
      (∀ j, j < k →
        (fs[j]? = some none →
          (stepList env s i0 fs).1.frame_counts[i0 + j]? =
            s.frame_counts[i0 + j]? ∧
          (stepList env s i0 fs).1.trackers[i0 + j]? = s.trackers[i0 + j]?) ∧
        (∀ f' fc' t', fs[j]? = some (some f') →
          s.frame_counts[i0 + j]? = some fc' → s.trackers[i0 + j]? = some t' →
          (stepList env s i0 fs).1.frame_counts[i0 + j]? = some (fc' + 1) ∧
          (stepList env s i0 fs).1.trackers[i0 + j]? =
            some (stepBody env s.detector_frame_skip s.draw (i0 + j) fc' t' f').2.1 ∧
          (stepList env s i0 fs).2.1.filter (fun e => e.stream == i0 + j) =
            (stepBody env s.detector_frame_skip s.draw (i0 + j) fc' t' f').2.2.1)) ∧
      (∀ j, k < j →
        (stepList env s i0 fs).1.frame_counts[i0 + j]? = s.frame_counts[i0 + j]? ∧
        (stepList env s i0 fs).1.trackers[i0 + j]? = s.trackers[i0 + j]? ∧
        (stepList env s i0 fs).2.1.filter (fun e => e.stream == i0 + j) = []) := by
  intro fs
  induction fs with
  | nil =>
    intro s i0 k f fc t h1 h2 hok hk hfc ht hfail
    simp at hk
  | cons hd tl ih =>
    intro s i0 k f fc t h1 h2 hok hk hfc ht hfail
    simp only [List.length_cons] at h1 h2
    cases k with
    | zero =>
      have hd_eq : hd = some f := by simpa using hk
      subst hd_eq
      simp only [Nat.add_zero] at hfc ht hfail ⊢
      rcases hsb : stepBody env s.detector_frame_skip s.draw i0 fc t f
        with ⟨fc', t', evs, err⟩
      have hffc : fc = fc' := by
        have := stepBody_fail_fc env s.detector_frame_skip s.draw i0 fc t f
          PyError.stageFailure hfail
        rw [hsb] at this
        exact this.symm
      have hferr : err = some PyError.stageFailure := by
        rw [hsb] at hfail
        exact hfail
      subst hffc
      subst hferr
      have hevs : ∀ a ∈ evs, a.stream = i0 := by
        intro a ha
        have := stepBody_stream env s.detector_frame_skip s.draw i0 fc t f a
        rw [hsb] at this
        exact this ha
      simp only [stepList, hfc, ht, hsb]
      refine ⟨by trivial, ⟨?_, ?_, ?_⟩, ?_, ?_⟩
      · exact List.getElem?_set_eq (by omega)
      · rw [List.getElem?_set_eq (by omega)]
      · refine List.filter_eq_self.2 ?_
        intro a ha
        simp only [beq_iff_eq]
        exact hevs a ha
      · intro j hj
        omega
      · intro j hj
        have hne : i0 ≠ i0 + j := by omega
        refine ⟨?_, ?_, ?_⟩
        · exact List.getElem?_set_ne hne
        · exact List.getElem?_set_ne hne
        · refine List.filter_eq_nil_iff.2 ?_
          intro a ha
          have := hevs a ha
          simp only [beq_iff_eq]
          omega
    | succ k' =>
      have harith : i0 + (k' + 1) = (i0 + 1) + k' := by omega
      cases hd with
      | none =>
        rw [harith] at hfc ht hfail ⊢
        simp only [stepList, List.getElem?_cons_succ]
        have hok' : ∀ j f', j < k' → tl[j]? = some (some f') →
            (∃ d, env.detect_postprocess f' = Except.ok d) ∧
            (∀ bs, ∃ e, env.extract_postprocess f' bs = Except.ok e) := by
          intro j f' hj hf'
          exact hok (j + 1) f' (by omega) (by simpa using hf')
        have hih := ih s (i0 + 1) k' f fc t (by omega) (by omega) hok'
          (by simpa using hk) hfc ht hfail
        obtain ⟨herr, hfslot, hearly, hlater⟩ := hih
        refine ⟨herr, hfslot, ?_, ?_⟩
        · intro j hj
          cases j with
          | zero =>
            constructor
            · intro _
              exact stepList_getElem_lt env tl s (i0 + 1) (i0 + 0) (by omega)
            · intro f' fc' t' hf'
              simp at hf'
          | succ j' =>
            have harj : i0 + (j' + 1) = (i0 + 1) + j' := by omega
            rw [harj]
            constructor
            · intro hnull
              exact (hearly j' (by omega)).1 (by simpa using hnull)
            · intro f' fc' t' hf' hfc' ht'
              exact (hearly j' (by omega)).2 f' fc' t' (by simpa using hf')
                hfc' ht'
        · intro j hj
          cases j with
          | zero => omega
          | succ j' =>
            have harj : i0 + (j' + 1) = (i0 + 1) + j' := by omega
            rw [harj]
            exact hlater j' (by omega)
      | some f0 =>
        obtain ⟨hd0, hx0⟩ := hok 0 f0 (by omega) (by simp)
        have hfc0' : i0 < s.frame_counts.length := by omega
        have ht0' : i0 < s.trackers.length := by omega
        rcases hfc0 : s.frame_counts[i0]? with _ | fc0
        · rw [List.getElem?_eq_getElem hfc0'] at hfc0; simp at hfc0
        rcases ht0 : s.trackers[i0]? with _ | t0
        · rw [List.getElem?_eq_getElem ht0'] at ht0; simp at ht0
        rcases hsb : stepBody env s.detector_frame_skip s.draw i0 fc0 t0 f0
          with ⟨fc0', t0', evs, err⟩
        have hok0 := stepBody_ok_of env s.detector_frame_skip s.draw i0 fc0 t0 f0
          hd0 hx0
        rw [hsb] at hok0
        obtain ⟨hfc1, herr0⟩ := hok0
        simp only at hfc1 herr0
        subst herr0
        subst hfc1
        have hevs : ∀ a ∈ evs, a.stream = i0 := by
          intro a ha
          have := stepBody_stream env s.detector_frame_skip s.draw i0 fc0 t0 f0 a
          rw [hsb] at this
          exact this ha
        simp only [stepList, hfc0, ht0, hsb, List.getElem?_cons_succ]
        have hne : i0 ≠ i0 + 1 + k' := by omega
        have hok' : ∀ j f', j < k' → tl[j]? = some (some f') →
            (∃ d, env.detect_postprocess f' = Except.ok d) ∧
            (∀ bs, ∃ e, env.extract_postprocess f' bs = Except.ok e) := by
          intro j f' hj hf'
          exact hok (j + 1) f' (by omega) (by simpa using hf')
        have hih := ih
          { s with frame_counts := s.frame_counts.set i0 (fc0 + 1),
                   trackers := s.trackers.set i0 t0' } (i0 + 1) k' f fc t
          (by simp only [List.length_set]; omega)
          (by simp only [List.length_set]; omega)
          hok' (by simpa using hk)
          (by simp only [List.getElem?_set_ne hne]; rw [← harith]; exact hfc)
          (by simp only [List.getElem?_set_ne hne]; rw [← harith]; exact ht)
          (by rw [← harith]; exact hfail)
        rcases hrec : stepList env
          { s with frame_counts := s.frame_counts.set i0 (fc0 + 1),
                   trackers := s.trackers.set i0 t0' } (i0 + 1) tl
          with ⟨s'', evs', err'⟩
        rw [hrec] at hih
        obtain ⟨herr, hfslot, hearly, hlater⟩ := hih
        have hstr : ∀ e ∈ evs', i0 + 1 ≤ e.stream := by
          intro a ha
          have := stepList_stream_ge env tl
            { s with frame_counts := s.frame_counts.set i0 (fc0 + 1),
                     trackers := s.trackers.set i0 t0' } (i0 + 1)
          rw [hrec] at this
          exact this a ha
        have hlt := stepList_getElem_lt env tl
          { s with frame_counts := s.frame_counts.set i0 (fc0 + 1),
                   trackers := s.trackers.set i0 t0' } (i0 + 1) i0 (by omega)
        rw [hrec] at hlt
        have hfilter_evs_ne : ∀ m : Nat, i0 ≠ m →
            List.filter (fun e => e.stream == m) evs = [] := by
          intro m hm
          refine List.filter_eq_nil_iff.2 ?_
          intro a ha
          have := hevs a ha
          simp only [beq_iff_eq]
          omega
        refine ⟨herr, ?_, ?_, ?_⟩
        · rw [harith]
          refine ⟨hfslot.1, ?_, ?_⟩
          · exact hfslot.2.1
          · rw [List.filter_append, hfilter_evs_ne (i0 + 1 + k') hne, hfslot.2.2,
              List.nil_append]
        · intro j hj
          cases j with
          | zero =>
            constructor
            · intro hnull
              simp at hnull
            · intro f' fc' t' hf' hfc' ht'
              simp only [Nat.add_zero] at hfc' ht' ⊢
              rw [hfc0] at hfc'
              rw [ht0] at ht'
              have hf0' : f' = f0 := by simpa using hf'.symm
              subst hf0'
              injection hfc' with hfc'
              injection ht' with ht'
              subst hfc'
              subst ht'
              refine ⟨?_, ?_, ?_⟩
              · rw [hlt.1]
                simp only
                exact List.getElem?_set_eq (by omega)
              · rw [hlt.2]
                simp only
                rw [List.getElem?_set_eq (by omega), hsb]
              · rw [List.filter_append]
                have h1' : List.filter (fun e => e.stream == i0) evs = evs := by
                  refine List.filter_eq_self.2 ?_
                  intro a ha
                  simp only [beq_iff_eq]
                  exact hevs a ha
                have h2' : List.filter (fun e => e.stream == i0) evs' = [] := by
                  refine List.filter_eq_nil_iff.2 ?_
                  intro a ha
                  have := hstr a ha
                  simp only [beq_iff_eq]
                  omega
                rw [h1', h2', List.append_nil, hsb]
          | succ j' =>
            have harj : i0 + (j' + 1) = (i0 + 1) + j' := by omega
            have hnej : i0 ≠ i0 + 1 + j' := by omega
            rw [harj]
            constructor
            · intro hnull
              obtain ⟨ha, hb⟩ := (hearly j' (by omega)).1 (by simpa using hnull)
              refine ⟨?_, ?_⟩
              · rw [ha]
                exact List.getElem?_set_ne hnej
              · rw [hb]
                exact List.getElem?_set_ne hnej
            · intro f' fc' t' hf' hfc' ht'
              obtain ⟨ha, hb, hc⟩ := (hearly j' (by omega)).2 f' fc' t'
                (by simpa using hf')
                (by simp only [List.getElem?_set_ne hnej]; exact hfc')
                (by simp only [List.getElem?_set_ne hnej]; exact ht')
              refine ⟨ha, ?_, ?_⟩
              · simpa only using hb
              · rw [List.filter_append, hfilter_evs_ne (i0 + 1 + j') hnej, hc,
                  List.nil_append]
        · intro j hj
          cases j with
          | zero => omega
          | succ j' =>
            have harj : i0 + (j' + 1) = (i0 + 1) + j' := by omega
            have hnej : i0 ≠ i0 + 1 + j' := by omega
            rw [harj]
            obtain ⟨ha, hb, hc⟩ := hlater j' (by omega)
            refine ⟨?_, ?_, ?_⟩
            · rw [ha]
              exact List.getElem?_set_ne hnej
            · rw [hb]
              exact List.getElem?_set_ne hnej
            · rw [List.filter_append, hfilter_evs_ne (i0 + 1 + j') hnej, hc,
                List.nil_append]

theorem stepList_overflow (env : Env) (henv : EnvOk env) :
    ∀ (fs : List (Option Frame)) (s : MOT) (i0 : Nat),
      s.frame_counts.length = s.trackers.length →
      s.frame_counts.length < i0 + fs.length →
      (∀ j, j < fs.length → ∃ f, fs[j]? = some (some f)) →
      i0 ≤ s.frame_counts.length →
      (stepList env s i0 fs).2.2 = some PyError.indexError ∧
      (∀ j fc t, i0 ≤ j → j < s.frame_counts.length →
        s.frame_counts[j]? = some fc → s.trackers[j]? = some t →
        (stepList env s i0 fs).1.frame_counts[j]? = some (fc + 1)) := by
  intro fs
  induction fs with
  | nil =>
    intro s i0 h0 h1 hnn h2
    simp only [List.length_nil] at h1
    omega
  | cons hd tl ih =>
    intro s i0 h0 h1 hnn h2
    simp only [List.length_cons] at h1
    obtain ⟨f, hf⟩ := hnn 0 (by simp)
    have hd_eq : hd = some f := by simpa using hf
    subst hd_eq
    by_cases hi0 : i0 = s.frame_counts.length
    · have hnone : s.frame_counts[i0]? = none :=
        List.getElem?_eq_none (by omega)
      rcases hT : s.trackers[i0]? with _ | t0 <;>
        simp only [stepList, hnone, hT] <;>
        exact ⟨by trivial, fun j fc t hj1 hj2 _ _ => by omega⟩
    · have hlt : i0 < s.frame_counts.length := by omega
      have hlt' : i0 < s.trackers.length := by omega
      rcases hfc0 : s.frame_counts[i0]? with _ | fc0
      · rw [List.getElem?_eq_getElem hlt] at hfc0; simp at hfc0
      rcases ht0 : s.trackers[i0]? with _ | t0
      · rw [List.getElem?_eq_getElem hlt'] at ht0; simp at ht0
      rcases hsb : stepBody env s.detector_frame_skip s.draw i0 fc0 t0 f
        with ⟨fc0', t0', evs, err⟩
      have hok0 := stepBody_ok env henv s.detector_frame_skip s.draw i0 fc0 t0 f
      rw [hsb] at hok0
      obtain ⟨hfc1, herr0⟩ := hok0
      simp only at hfc1 herr0
      subst herr0
      subst hfc1
      simp only [stepList, hfc0, ht0, hsb]
      have hih := ih
        { s with frame_counts := s.frame_counts.set i0 (fc0 + 1),
                 trackers := s.trackers.set i0 t0' } (i0 + 1)
        (by simp only [List.length_set]; omega)
        (by simp only [List.length_set]; omega)
        (fun j hj => by
          obtain ⟨f', hf'⟩ := hnn (j + 1) (by simpa using Nat.succ_lt_succ hj)
          exact ⟨f', by simpa using hf'⟩)
        (by simp only [List.length_set]; omega)
      rcases hrec : stepList env
        { s with frame_counts := s.frame_counts.set i0 (fc0 + 1),
                 trackers := s.trackers.set i0 t0' } (i0 + 1) tl
        with ⟨s'', evs', err'⟩
      rw [hrec] at hih
      obtain ⟨herr, hproc⟩ := hih
      refine ⟨herr, ?_⟩
      intro j fc t hj1 hj2 hfcj htj
      by_cases hji : j = i0
      · have hji2 : i0 = j := hji.symm
        subst hji2
        have hlt2 := stepList_getElem_lt env tl
          { s with frame_counts := s.frame_counts.set i0 (fc0 + 1),
                   trackers := s.trackers.set i0 t0' } (i0 + 1) i0 (by omega)
        rw [hrec] at hlt2
        rw [hlt2.1]
        rw [hfc0] at hfcj
        injection hfcj with hfcj
        subst hfcj
        exact List.getElem?_set_eq (by omega)
      · have hne : i0 ≠ j := by omega
        have := hproc j fc t (by omega)
          (by simp only [List.length_set]; omega)
          (by simp only [List.getElem?_set_ne hne]; exact hfcj)
          (by simp only [List.getElem?_set_ne hne]; exact htj)
        exact this

theorem resetLoop_spec (streams : List StreamConfig) :
    ∀ (todo : Nat) (trackers : List TrackerState) (fcs : List Nat) (i : Nat),
      i + todo ≤ trackers.length → i + todo ≤ streams.length →
      (resetLoop streams trackers fcs i todo).2.2 = none ∧
      (resetLoop streams trackers fcs i todo).2.1 =
        fcs ++ List.replicate todo 0 ∧
      (resetLoop streams trackers fcs i todo).1.length = trackers.length ∧
      (∀ j, (j < i ∨ i + todo ≤ j) →
        (resetLoop streams trackers fcs i todo).1[j]? = trackers[j]?) ∧
      (∀ j cfg, i ≤ j → j < i + todo → streams[j]? = some cfg →
        (resetLoop streams trackers fcs i todo).1[j]? =
          some (trackerReset cfg.cap_dt)) := by
  intro todo
  induction todo with
  | zero =>
    intro trackers fcs i h1 h2
    refine ⟨rfl, by simp [resetLoop], rfl, fun j hj => rfl, ?_⟩
    intro j cfg hj1 hj2 _
    omega
  | succ todo ih =>
    intro trackers fcs i h1 h2
    have hti : i < trackers.length := by omega
    have hsi : i < streams.length := by omega
    rcases ht : trackers[i]? with _ | t0
    · rw [List.getElem?_eq_getElem hti] at ht; simp at ht
    rcases hs : streams[i]? with _ | cfg0
    · rw [List.getElem?_eq_getElem hsi] at hs; simp at hs
    simp only [resetLoop, ht, hs]
    have hih := ih (trackers.set i (trackerReset cfg0.cap_dt)) (fcs ++ [0]) (i + 1)
      (by simp only [List.length_set]; omega) (by omega)
    obtain ⟨he, hf, hl, hun, hin⟩ := hih
    refine ⟨he, ?_, ?_, ?_, ?_⟩
    · rw [hf, List.append_assoc, List.singleton_append, ← List.replicate_succ]
    · rw [hl]; simp [List.length_set]
    · intro j hj
      rcases hj with hj | hj
      · rw [hun j (Or.inl (by omega))]
        exact List.getElem?_set_ne (by omega)
      · rw [hun j (Or.inr (by omega))]
        exact List.getElem?_set_ne (by omega)
    · intro j cfg hj1 hj2 hsj
      by_cases hji : j = i
      · subst hji
        rw [hun j (Or.inl (by omega))]
        rw [hs] at hsj
        injection hsj with hsj
        rw [← hsj]
        exact List.getElem?_set_eq hti
      · exact hin j cfg (by omega) (by omega) hsj

theorem reset_spec (s : MOT) (streams : List StreamConfig)
    (h1 : s.number_of_trackers ≤ s.trackers.length)
    (h2 : s.number_of_trackers ≤ streams.length) :
    (MOT.reset s streams).2 = none ∧
    (MOT.reset s streams).1.frame_counts =
      List.replicate s.number_of_trackers 0 ∧
    (MOT.reset s streams).1.trackers.length = s.trackers.length ∧
    (∀ j, s.number_of_trackers ≤ j →
      (MOT.reset s streams).1.trackers[j]? = s.trackers[j]?) ∧
    (∀ j cfg, j < s.number_of_trackers → streams[j]? = some cfg →
      (MOT.reset s streams).1.trackers[j]? = some (trackerReset cfg.cap_dt)) ∧
    (MOT.reset s streams).1.size = s.size ∧
    (MOT.reset s streams).1.detector_frame_skip = s.detector_frame_skip ∧
    (MOT.reset s streams).1.draw = s.draw ∧
    (MOT.reset s streams).1.number_of_trackers = s.number_of_trackers := by
  have hspec := resetLoop_spec streams s.number_of_trackers s.trackers [] 0
    (by omega) (by omega)
  rcases hr : resetLoop streams s.trackers [] 0 s.number_of_trackers
    with ⟨ts, fcs, err⟩
  rw [hr] at hspec
  obtain ⟨he, hf, hl, hun, hin⟩ := hspec
  simp only [MOT.reset, hr]
  refine ⟨he, by simpa using hf, hl, ?_, ?_, by trivial, by trivial, by trivial,
    by trivial⟩
  · intro j hj
    exact hun j (Or.inr (by omega))
  · intro j cfg hj hsj
    exact hin j cfg (by omega) (by omega) hsj

/-- State after `j` successive `MOT.step` calls feeding `fs 0`, …,
`fs (j-1)`. -/
def stepRun (env : Env) (s : MOT) (fs : Nat → List (Option Frame)) : Nat → MOT
  | 0 => s
  | j + 1 => (MOT.step env (stepRun env s fs j) (fs j)).1

/-- Trace of the `j`-th `MOT.step` call of a run. -/
def stepTrace (env : Env) (s : MOT) (fs : Nat → List (Option Frame))
    (j : Nat) : List Event :=
  (MOT.step env (stepRun env s fs j) (fs j)).2.1

/-- Empty tracker state used by the concrete instantiations below. -/
def tEmpty : TrackerState := { cap_dt := 0, tracks := [] }

/-- Concrete, always-succeeding collaborator oracle for closed witnesses. -/
def envA : Env where
  detect := fun f => [{ tlbr := f, label := 0, conf := 1 }]
  detect_postprocess := fun f => Except.ok [{ tlbr := f + 100, label := 0, conf := 1 }]
  extract_postprocess := fun _ bs => Except.ok (bs.map fun b => b + 1)
  tInit := fun t f _ =>
    { t with tracks := t.tracks ++ [{ confirmed := false, active := true, payload := f }] }
  tComputeFlow := fun t _ => { t with cap_dt := t.cap_dt + 1 }
  tApplyKalman := fun t => { t with cap_dt := t.cap_dt + 100 }
  tUpdate := fun t fc _ _ =>
    { t with tracks := t.tracks ++ [{ confirmed := true, active := true, payload := fc }] }
  tTrack := fun t _ => t

theorem envA_ok : EnvOk envA :=
  ⟨fun _ => ⟨_, rfl⟩, fun _ _ => ⟨_, rfl⟩⟩

/-- Variant of `envA` whose detection join raises on frame `7`. -/
def envB : Env :=
  { envA with
    detect_postprocess := fun f =>
      if f = 7 then Except.error ()
      else Except.ok [{ tlbr := f + 100, label := 0, conf := 1 }] }

/-- C9: `MOT.__init__` asserts `detector_frame_skip >= 1`.  Construction
fails exactly when the cadence period is below 1; on success the stored
period equals the given integer, hence is always at least 1. -/
theorem mot_C9 (size : Nat × Nat) (dfs : Int) (draw : Bool) (n : Nat)
    (t0 : TrackerState) :
    ((MOT.construct size dfs draw n t0).isOk = true ↔ 1 ≤ dfs) ∧
    (∀ m, MOT.construct size dfs draw n t0 = Except.ok m →
      1 ≤ m.detector_frame_skip ∧ (m.detector_frame_skip : Int) = dfs) := by
  unfold MOT.construct
  by_cases h : 1 ≤ dfs
  · rw [if_pos h]
    refine ⟨⟨fun _ => h, fun _ => rfl⟩, ?_⟩
    intro m hm
    rw [Except.ok.injEq] at hm
    subst hm
    constructor
    · simp only
      omega
    · simp only
      exact Int.toNat_of_nonneg (by omega)
  · rw [if_neg h]
    constructor
    · constructor
      · intro hh
        exact absurd hh (by simp [Except.isOk, Except.toBool])
      · intro hh
        exact absurd hh h
    · intro m hm
      exact absurd hm (by simp)

theorem mot_C9_witness :
    (MOT.construct (64, 48) 5 false 2 tEmpty).isOk = true :=
  (mot_C9 (64, 48) 5 false 2 tEmpty).1.mpr (by decide)

/-- Concrete state used to refute restartability of the generators
returned by `MOT.visible_tracks`. -/
def mot7 : MOT :=
  { size := (0, 0), detector_frame_skip := 5, draw := false,
    number_of_trackers := 1,
    trackers := [{ cap_dt := 0,
                   tracks := [{ confirmed := true, active := true, payload := 4 },
                              { confirmed := false, active := true, payload := 5 }] }],
    frame_counts := [1] }

/-- C7 counterexample: the sequence returned by `visible_tracks` is a
Python generator, which is one-shot, not restartable — traversing it a
second time yields nothing, not the same elements again. -/
theorem mot_C7_counterexample :
    ((MOT.visible_tracks mot7).headI.consume.2).consume.1 ≠
      (MOT.visible_tracks mot7).headI.consume.1 := by decide

/-- C7 (amended): `visible_tracks` reads the state only (it is a pure
function of the `MOT` state), returns one generator per stream holding
exactly that stream's confirmed-and-active tracks in order, and those
generators are finite but one-shot: once consumed, a second traversal
yields the empty sequence. -/
theorem mot_C7_amended (s : MOT) (h : s.number_of_trackers ≤ s.trackers.length) :
    (MOT.visible_tracks s).length = s.number_of_trackers ∧
    (∀ i t, i < s.number_of_trackers → s.trackers[i]? = some t →
      (MOT.visible_tracks s)[i]? =
        some { remaining := t.tracks.filter fun tr => tr.confirmed && tr.active } ∧
      ((MOT.visible_tracks s).getD i default).consume.1 =
        t.tracks.filter fun tr => tr.confirmed && tr.active) ∧
    (∀ g ∈ MOT.visible_tracks s, (g.consume.2).consume.1 = []) := by
  refine ⟨?_, ?_, ?_⟩
  · unfold MOT.visible_tracks
    rw [List.length_map, List.length_take]
    omega
  · intro i t hi htr
    have hmem : (MOT.visible_tracks s)[i]? =
        some { remaining := t.tracks.filter fun tr => tr.confirmed && tr.active } := by
      unfold MOT.visible_tracks
      rw [List.getElem?_map, List.getElem?_take, if_pos hi, htr]
      rfl
    refine ⟨hmem, ?_⟩
    rw [List.getD_eq_getElem?_getD, hmem]
    rfl
  · intro g _
    rfl

theorem mot_C7_amended_witness :
    (MOT.visible_tracks mot7).length = 1 ∧
    (MOT.visible_tracks mot7)[0]? =
      some { remaining := [{ confirmed := true, active := true, payload := 4 }] } :=
  ⟨(mot_C7_amended mot7 (by decide)).1,
    ((mot_C7_amended mot7 (by decide)).2.1 0
      { cap_dt := 0,
        tracks := [{ confirmed := true, active := true, payload := 4 },
                   { confirmed := false, active := true, payload := 5 }] }
      (by decide) (by decide)).1⟩

/-- C8: `MOT.reset` with one configuration per stream succeeds, zeroes
every stream's frame count, reseeds every tracker with its own stream's
`cap_dt`, and the result is independent of all prior per-stream state
(full replacement, no partial reuse). -/
theorem mot_C8 (s : MOT) (streams : List StreamConfig)
    (h1 : s.trackers.length = s.number_of_trackers)
    (h2 : streams.length = s.number_of_trackers) :
    (MOT.reset s streams).2 = none ∧
    (MOT.reset s streams).1.frame_counts =
      List.replicate s.number_of_trackers 0 ∧
    (MOT.reset s streams).1.trackers.length = s.number_of_trackers ∧
    (∀ j cfg, j < s.number_of_trackers → streams[j]? = some cfg →
      (MOT.reset s streams).1.trackers[j]? = some (trackerReset cfg.cap_dt)) ∧
    (∀ s₂ : MOT, s₂.number_of_trackers = s.number_of_trackers →
      s₂.trackers.length = s.number_of_trackers →
      (MOT.reset s₂ streams).1.trackers = (MOT.reset s streams).1.trackers ∧
      (MOT.reset s₂ streams).1.frame_counts = (MOT.reset s streams).1.frame_counts) := by
  obtain ⟨he, hf, hl, hun, hin, -⟩ := reset_spec s streams (by omega) (by omega)
  refine ⟨he, hf, by omega, ?_, ?_⟩
  · intro j cfg hj hsj
    exact hin j cfg hj hsj
  · intro s₂ hn2 hl2
    obtain ⟨he2, hf2, hl2', hun2, hin2, -⟩ := reset_spec s₂ streams (by omega) (by omega)
    constructor
    · apply List.ext_getElem?
      intro j
      by_cases hj : j < s.number_of_trackers
      · obtain ⟨cfg, hcfg⟩ : ∃ cfg, streams[j]? = some cfg := by
          rw [List.getElem?_eq_getElem (by omega)]
          exact ⟨_, rfl⟩
        rw [hin2 j cfg (by omega) hcfg, hin j cfg hj hcfg]
      · rw [hun2 j (by omega), hun j (by omega),
          List.getElem?_eq_none (by omega), List.getElem?_eq_none (by omega)]
    · rw [hf2, hf, hn2]

theorem mot_C8_witness :
    (MOT.reset mot7 [{ cap_dt := 9 }]).2 = none ∧
    (MOT.reset mot7 [{ cap_dt := 9 }]).1.frame_counts = List.replicate 1 0 ∧
    (MOT.reset mot7 [{ cap_dt := 9 }]).1.trackers[0]? =
      some (trackerReset 9) :=
  ⟨(mot_C8 mot7 [{ cap_dt := 9 }] (by decide) (by decide)).1,
   (mot_C8 mot7 [{ cap_dt := 9 }] (by decide) (by decide)).2.1,
   (mot_C8 mot7 [{ cap_dt := 9 }] (by decide) (by decide)).2.2.2.1 0
     { cap_dt := 9 } (by decide) (by decide)⟩

/-- Two-stream state with frame counts `[5, 3]` and cadence period 5,
used by the closed witnesses. -/
def mot5 : MOT :=
  { size := (0, 0), detector_frame_skip := 5, draw := false,
    number_of_trackers := 2, trackers := [tEmpty, tEmpty],
    frame_counts := [5, 3] }

/-- One-stream state with drawing enabled, on a track-only frame. -/
def mot10 : MOT :=
  { size := (0, 0), detector_frame_skip := 5, draw := true,
    number_of_trackers := 1, trackers := [tEmpty], frame_counts := [3] }

/-- C3: in a `step` call (joins succeeding), a stream fed a null frame is
left completely untouched — same frame count, same tracker state, and no
collaborator call is made for it — while every stream fed a non-null
frame has its frame count advanced by exactly 1. -/
theorem mot_C3 (env : Env) (henv : EnvOk env) (s : MOT)
    (fs : List (Option Frame))
    (h1 : fs.length = s.frame_counts.length)
    (h2 : fs.length = s.trackers.length) :
    (MOT.step env s fs).2.2 = none ∧
    ∀ i,
      (fs[i]? = some none →
        (MOT.step env s fs).1.frame_counts[i]? = s.frame_counts[i]? ∧
        (MOT.step env s fs).1.trackers[i]? = s.trackers[i]? ∧
        (MOT.step env s fs).2.1.filter (fun e => e.stream == i) = []) ∧
      (∀ f fc, fs[i]? = some (some f) → s.frame_counts[i]? = some fc →
        (MOT.step env s fs).1.frame_counts[i]? = some (fc + 1)) := by
  constructor
  · exact stepList_err_none env henv fs s 0 (by omega) (by omega)
  intro i
  have hslot := stepList_slot env henv fs s 0 i (by omega) (by omega)
  simp only [Nat.zero_add] at hslot
  constructor
  · intro hnone
    exact hslot.1 hnone
  · intro f fc hf hfc
    obtain ⟨hi, -⟩ := List.getElem?_eq_some.1 hf
    obtain ⟨t, ht⟩ : ∃ t, s.trackers[i]? = some t := by
      rw [List.getElem?_eq_getElem (by omega)]
      exact ⟨_, rfl⟩
    exact (hslot.2 f fc t hf hfc ht).1

theorem mot_C3_witness :
    (MOT.step envA mot5 [none, some 2]).2.2 = none ∧
    (MOT.step envA mot5 [none, some 2]).1.frame_counts[0]? = mot5.frame_counts[0]? ∧
    (MOT.step envA mot5 [none, some 2]).1.trackers[0]? = mot5.trackers[0]? ∧
    (MOT.step envA mot5 [none, some 2]).2.1.filter (fun e => e.stream == 0) = [] ∧
    (MOT.step envA mot5 [none, some 2]).1.frame_counts[1]? = some (3 + 1) :=
  ⟨(mot_C3 envA envA_ok mot5 [none, some 2] (by decide) (by decide)).1,
   (((mot_C3 envA envA_ok mot5 [none, some 2] (by decide) (by decide)).2 0).1
     (by decide)).1,
   (((mot_C3 envA envA_ok mot5 [none, some 2] (by decide) (by decide)).2 0).1
     (by decide)).2.1,
   (((mot_C3 envA envA_ok mot5 [none, some 2] (by decide) (by decide)).2 0).1
     (by decide)).2.2,
   ((mot_C3 envA envA_ok mot5 [none, some 2] (by decide) (by decide)).2 1).2
     2 3 (by decide) (by decide)⟩

/-- C10: with drawing enabled, every track-only frame renders with an
empty detection list — the detections of an earlier detect-cycle are
never carried into a later frame's rendering (the theorem holds for an
arbitrary prior state, in particular whatever the last DetectCycle
produced). -/
theorem mot_C10 (env : Env) (henv : EnvOk env) (s : MOT)
    (fs : List (Option Frame)) (i fc : Nat) (t : TrackerState) (f : Frame)
    (hlen1 : fs.length ≤ s.frame_counts.length)
    (hlen2 : fs.length ≤ s.trackers.length)
    (hdraw : s.draw = true)
    (hi : fs[i]? = some (some f))
    (hfc : s.frame_counts[i]? = some fc) (ht : s.trackers[i]? = some t)
    (hpos : 0 < fc) (hmod : fc % s.detector_frame_skip ≠ 0) :
    (MOT.step env s fs).2.1.filter (fun e => e.stream == i) =
      [Event.trackOnly i f, Event.render i f []] := by
  have hslot := stepList_slot env henv fs s 0 i (by omega) (by omega)
  simp only [Nat.zero_add] at hslot
  have htr := (hslot.2 f fc t hi hfc ht).2.2
  unfold MOT.step
  rw [htr]
  unfold stepBody
  rw [if_neg (by omega : ¬ fc = 0), if_neg hmod, hdraw]
  simp

theorem mot_C10_witness :
    (MOT.step envA mot10 [some 2]).2.1.filter (fun e => e.stream == 0) =
      [Event.trackOnly 0 2, Event.render 0 2 []] :=
  mot_C10 envA envA_ok mot10 [some 2] 0 3 tEmpty 2 (by decide) (by decide)
    (by decide) (by decide) (by decide) (by decide) (by decide) (by decide)

/-- C2: within one DetectCycle the collaborator calls of that stream are
exactly, in this order and each exactly once: issue detection, compute
optical flow, join detection, issue extraction on the detection boxes,
apply the Kalman prediction, join extraction, tracker update with the
frame index, the detections and the embeddings (plus the optional final
render).  The filtered trace being this literal sequence also shows no
second DetectCycle of the same stream interleaves with it. -/
theorem mot_C2 (env : Env) (henv : EnvOk env) (s : MOT)
    (fs : List (Option Frame)) (i fc : Nat) (t : TrackerState) (f : Frame)
    (dets : List Detection) (embs : List Emb)
    (hlen1 : fs.length ≤ s.frame_counts.length)
    (hlen2 : fs.length ≤ s.trackers.length)
    (hi : fs[i]? = some (some f))
    (hfc : s.frame_counts[i]? = some fc) (ht : s.trackers[i]? = some t)
    (hpos : 0 < fc) (hmod : fc % s.detector_frame_skip = 0)
    (hdet : env.detect_postprocess f = Except.ok dets)
    (hext : env.extract_postprocess f (dets.map Detection.tlbr) = Except.ok embs) :
    (MOT.step env s fs).2.1.filter (fun e => e.stream == i) =
      [Event.detectAsync i f, Event.computeFlow i f, Event.detectJoin i dets,
       Event.extractAsync i f (dets.map Detection.tlbr), Event.applyKalman i,
       Event.extractJoin i embs, Event.trackerUpdate i fc dets embs]
        ++ (if s.draw then [Event.render i f dets] else []) := by
  have hslot := stepList_slot env henv fs s 0 i (by omega) (by omega)
  simp only [Nat.zero_add] at hslot
  have htr := (hslot.2 f fc t hi hfc ht).2.2
  unfold MOT.step
  rw [htr]
  unfold stepBody
  rw [if_neg (by omega : ¬ fc = 0), if_pos hmod]
  simp only [hdet, hext]

theorem mot_C2_witness :
    (MOT.step envA mot5 [some 1, some 2]).2.1.filter (fun e => e.stream == 0) =
      [Event.detectAsync 0 1, Event.computeFlow 0 1,
       Event.detectJoin 0 [{ tlbr := 101, label := 0, conf := 1 }],
       Event.extractAsync 0 1 [101], Event.applyKalman 0,
       Event.extractJoin 0 [102],
       Event.trackerUpdate 0 5 [{ tlbr := 101, label := 0, conf := 1 }] [102]]
        ++ (if mot5.draw then
              [Event.render 0 1 [{ tlbr := 101, label := 0, conf := 1 }]]
            else []) :=
  mot_C2 envA envA_ok mot5 [some 1, some 2] 0 5 tEmpty 1
    [{ tlbr := 101, label := 0, conf := 1 }] [102]
    (by decide) (by decide) (by decide) (by decide) (by decide)
    (by decide) (by decide) rfl rfl

/-- C5: in a completed DetectCycle the box list handed to the extraction
issue call is exactly `dets.map tlbr` — the `DetectionSet` boxes in the
same order — and the tracker update receives that same `DetectionSet`
together with the joined `EmbeddingSet`; with an ordering-preserving
extractor the embeddings align 1:1 by index with the detections. -/
theorem mot_C5 (env : Env) (henv : EnvOk env) (s : MOT)
    (fs : List (Option Frame)) (i fc : Nat) (t : TrackerState) (f : Frame)
    (dets : List Detection) (ef : Box → Emb)
    (hlen1 : fs.length ≤ s.frame_counts.length)
    (hlen2 : fs.length ≤ s.trackers.length)
    (hi : fs[i]? = some (some f))
    (hfc : s.frame_counts[i]? = some fc) (ht : s.trackers[i]? = some t)
    (hpos : 0 < fc) (hmod : fc % s.detector_frame_skip = 0)
    (hdet : env.detect_postprocess f = Except.ok dets)
    (hext : ∀ f' bs, env.extract_postprocess f' bs = Except.ok (bs.map ef)) :
    Event.extractAsync i f (dets.map Detection.tlbr) ∈ (MOT.step env s fs).2.1 ∧
    Event.trackerUpdate i fc dets ((dets.map Detection.tlbr).map ef) ∈
      (MOT.step env s fs).2.1 ∧
    ((dets.map Detection.tlbr).map ef).length = dets.length ∧
    (∀ k : Nat, ((dets.map Detection.tlbr).map ef)[k]? =
      Option.map (fun d => ef (Detection.tlbr d)) dets[k]?) := by
  have hslot := stepList_slot env henv fs s 0 i (by omega) (by omega)
  simp only [Nat.zero_add] at hslot
  have htr := (hslot.2 f fc t hi hfc ht).2.2
  have hfl : (stepList env s 0 fs).2.1.filter (fun e => e.stream == i) =
      [Event.detectAsync i f, Event.computeFlow i f, Event.detectJoin i dets,
       Event.extractAsync i f (dets.map Detection.tlbr), Event.applyKalman i,
       Event.extractJoin i ((dets.map Detection.tlbr).map ef),
       Event.trackerUpdate i fc dets ((dets.map Detection.tlbr).map ef)]
        ++ (if s.draw then [Event.render i f dets] else []) := by
    rw [htr]
    unfold stepBody
    rw [if_neg (by omega : ¬ fc = 0), if_pos hmod]
    simp only [hdet, hext]
  refine ⟨?_, ?_, ?_, ?_⟩
  · refine List.mem_of_mem_filter (p := fun e => e.stream == i) ?_
    show _ ∈ (stepList env s 0 fs).2.1.filter (fun e => e.stream == i)
    rw [hfl]
    simp
  · refine List.mem_of_mem_filter (p := fun e => e.stream == i) ?_
    show _ ∈ (stepList env s 0 fs).2.1.filter (fun e => e.stream == i)
    rw [hfl]
    simp
  · simp
  · intro k
    simp only [List.getElem?_map, Option.map_map]
    rfl

theorem mot_C5_witness :
    Event.extractAsync 0 1 [101] ∈ (MOT.step envA mot5 [some 1, some 2]).2.1 ∧
    Event.trackerUpdate 0 5 [{ tlbr := 101, label := 0, conf := 1 }] [102] ∈
      (MOT.step envA mot5 [some 1, some 2]).2.1 ∧
    ([102] : List Emb).length = 1 :=
  ⟨(mot_C5 envA envA_ok mot5 [some 1, some 2] 0 5 tEmpty 1
      [{ tlbr := 101, label := 0, conf := 1 }] (fun b => b + 1)
      (by decide) (by decide) (by decide) (by decide) (by decide)
      (by decide) (by decide) rfl (fun _ _ => rfl)).1,
   (mot_C5 envA envA_ok mot5 [some 1, some 2] 0 5 tEmpty 1
      [{ tlbr := 101, label := 0, conf := 1 }] (fun b => b + 1)
      (by decide) (by decide) (by decide) (by decide) (by decide)
      (by decide) (by decide) rfl (fun _ _ => rfl)).2.1,
   (mot_C5 envA envA_ok mot5 [some 1, some 2] 0 5 tEmpty 1
      [{ tlbr := 101, label := 0, conf := 1 }] (fun b => b + 1)
      (by decide) (by decide) (by decide) (by decide) (by decide)
      (by decide) (by decide) rfl (fun _ _ => rfl)).2.2.1⟩

theorem isDetectSyncOf_absorb (i : Nat) (a : Event) :
    ((a.stream == i) && Event.isDetectSyncOf i a) = Event.isDetectSyncOf i a := by
  cases a <;> simp [Event.stream, Event.isDetectSyncOf]

theorem isDetectAsyncOf_absorb (i : Nat) (a : Event) :
    ((a.stream == i) && Event.isDetectAsyncOf i a) = Event.isDetectAsyncOf i a := by
  cases a <;> simp [Event.stream, Event.isDetectAsyncOf]

theorem isTrackOnlyOf_absorb (i : Nat) (a : Event) :
    ((a.stream == i) && Event.isTrackOnlyOf i a) = Event.isTrackOnlyOf i a := by
  cases a <;> simp [Event.stream, Event.isTrackOnlyOf]

theorem pathTaken_filter (evs : List Event) (i : Nat) :
    pathTaken (evs.filter (fun e => e.stream == i)) i = pathTaken evs i := by
  unfold pathTaken
  rw [List.any_filter, List.any_filter, List.any_filter]
  simp only [isDetectSyncOf_absorb, isDetectAsyncOf_absorb, isTrackOnlyOf_absorb]

theorem phaseOf_eq_coldStart (j P : Nat) :
    phaseOf j P = CadencePhase.coldStart ↔ j = 0 := by
  unfold phaseOf
  split_ifs <;> simp_all

theorem phaseOf_eq_detectCycle (j P : Nat) :
    phaseOf j P = CadencePhase.detectCycle ↔ 0 < j ∧ P ∣ j := by
  unfold phaseOf
  rw [Nat.dvd_iff_mod_eq_zero]
  split_ifs <;> simp_all <;> omega

theorem phaseOf_eq_trackOnly (j P : Nat) :
    phaseOf j P = CadencePhase.trackOnly ↔ 0 < j ∧ ¬ P ∣ j := by
  unfold phaseOf
  rw [Nat.dvd_iff_mod_eq_zero]
  split_ifs <;> simp_all <;> omega

theorem stepRun_inv (env : Env) (s : MOT) (fs : Nat → List (Option Frame)) :
    ∀ j, (stepRun env s fs j).detector_frame_skip = s.detector_frame_skip ∧
      (stepRun env s fs j).draw = s.draw ∧
      (stepRun env s fs j).number_of_trackers = s.number_of_trackers ∧
      (stepRun env s fs j).frame_counts.length = s.frame_counts.length ∧
      (stepRun env s fs j).trackers.length = s.trackers.length := by
  intro j
  induction j with
  | zero => exact ⟨rfl, rfl, rfl, rfl, rfl⟩
  | succ j ih =>
    obtain ⟨-, h2, h3, h4, h5, h6⟩ := stepList_misc env (fs j) (stepRun env s fs j) 0
    refine ⟨?_, ?_, ?_, ?_, ?_⟩
    · show (MOT.step env (stepRun env s fs j) (fs j)).1.detector_frame_skip = _
      rw [MOT.step, h2, ih.1]
    · show (MOT.step env (stepRun env s fs j) (fs j)).1.draw = _
      rw [MOT.step, h3, ih.2.1]
    · show (MOT.step env (stepRun env s fs j) (fs j)).1.number_of_trackers = _
      rw [MOT.step, h4, ih.2.2.1]
    · show (MOT.step env (stepRun env s fs j) (fs j)).1.frame_counts.length = _
      rw [MOT.step, h5, ih.2.2.2.1]
    · show (MOT.step env (stepRun env s fs j) (fs j)).1.trackers.length = _
      rw [MOT.step, h6, ih.2.2.2.2]

theorem stepRun_fc (env : Env) (henv : EnvOk env) (s : MOT) (n : Nat)
    (h1 : s.frame_counts.length = n) (h2 : s.trackers.length = n)
    (hzero : ∀ i, i < n → s.frame_counts[i]? = some 0)
    (fs : Nat → List (Option Frame))
    (hlen : ∀ j, (fs j).length = n)
    (hnn : ∀ j i, i < n → ∃ f, (fs j)[i]? = some (some f)) :
    ∀ j i, i < n → (stepRun env s fs j).frame_counts[i]? = some j := by
  intro j
  induction j with
  | zero => exact fun i hi => hzero i hi
  | succ j ih =>
    intro i hi
    obtain ⟨f, hf⟩ := hnn j i hi
    obtain ⟨-, -, -, hfl, htl⟩ := stepRun_inv env s fs j
    obtain ⟨t, ht⟩ : ∃ t, (stepRun env s fs j).trackers[i]? = some t := by
      rw [List.getElem?_eq_getElem (by omega)]
      exact ⟨_, rfl⟩
    have hslot := stepList_slot env henv (fs j) (stepRun env s fs j) 0 i
      (by rw [hlen j]; omega) (by rw [hlen j]; omega)
    simp only [Nat.zero_add] at hslot
    have hres := (hslot.2 f j t hf (ih i hi) ht).1
    show (MOT.step env (stepRun env s fs j) (fs j)).1.frame_counts[i]? = some (j + 1)
    rw [MOT.step]
    exact hres

/-- C1: over a run of consecutive non-null frames after reset, each
stream's frame count at call `j` is exactly `j`, and the execution path
taken is `phaseOf j P`: ColdStart exactly at 0, DetectCycle exactly at the
positive multiples of the cadence period, TrackOnly everywhere else; for
`P = 1` every positive frame is a DetectCycle; and the path taken by the
per-stream body is a function of the frame count and the period only —
independent of the collaborators, the tracker state, the frame and the
draw flag (there is no stored mode field in the state). -/
theorem mot_C1 (env : Env) (henv : EnvOk env) (s : MOT) (n P : Nat)
    (hP : 1 ≤ P) (hPs : s.detector_frame_skip = P)
    (h1 : s.frame_counts.length = n) (h2 : s.trackers.length = n)
    (hzero : ∀ i, i < n → s.frame_counts[i]? = some 0)
    (fs : Nat → List (Option Frame))
    (hlen : ∀ j, (fs j).length = n)
    (hnn : ∀ j i, i < n → ∃ f, (fs j)[i]? = some (some f)) :
    ∀ j i, i < n →
      (stepRun env s fs j).frame_counts[i]? = some j ∧
      pathTaken (stepTrace env s fs j) i = some (phaseOf j P) ∧
      (pathTaken (stepTrace env s fs j) i = some CadencePhase.coldStart ↔
        j = 0) ∧
      (pathTaken (stepTrace env s fs j) i = some CadencePhase.detectCycle ↔
        0 < j ∧ P ∣ j) ∧
      (pathTaken (stepTrace env s fs j) i = some CadencePhase.trackOnly ↔
        0 < j ∧ ¬ P ∣ j) ∧
      (P = 1 → 0 < j →
        pathTaken (stepTrace env s fs j) i = some CadencePhase.detectCycle) ∧
      (∀ (env₂ : Env) (draw₂ : Bool) (i₂ fc₂ : Nat) (t₂ : TrackerState)
        (f₂ : Frame),
        pathTaken (stepBody env₂ P draw₂ i₂ fc₂ t₂ f₂).2.2.1 i₂ =
          some (phaseOf fc₂ P)) := by
  intro j i hi
  obtain ⟨f, hf⟩ := hnn j i hi
  obtain ⟨hdfs, -, -, hfl, htl⟩ := stepRun_inv env s fs j
  obtain ⟨t, ht⟩ : ∃ t, (stepRun env s fs j).trackers[i]? = some t := by
    rw [List.getElem?_eq_getElem (by omega)]
    exact ⟨_, rfl⟩
  have hfcj := stepRun_fc env henv s n h1 h2 hzero fs hlen hnn j i hi
  have hslot := stepList_slot env henv (fs j) (stepRun env s fs j) 0 i
    (by rw [hlen j]; omega) (by rw [hlen j]; omega)
  simp only [Nat.zero_add] at hslot
  have htr := (hslot.2 f j t hf hfcj ht).2.2
  have hpath : pathTaken (stepTrace env s fs j) i = some (phaseOf j P) := by
    unfold stepTrace MOT.step
    rw [← pathTaken_filter, htr, hdfs, hPs]
    exact pathTaken_stepBody env P (stepRun env s fs j).draw i j t f
  refine ⟨hfcj, hpath, ?_, ?_, ?_, ?_, ?_⟩
  · rw [hpath]
    simp only [Option.some.injEq]
    exact phaseOf_eq_coldStart j P
  · rw [hpath]
    simp only [Option.some.injEq]
    exact phaseOf_eq_detectCycle j P
  · rw [hpath]
    simp only [Option.some.injEq]
    exact phaseOf_eq_trackOnly j P
  · intro hP1 hj
    rw [hpath, (phaseOf_eq_detectCycle j P).mpr ⟨hj, by rw [hP1]; exact one_dvd j⟩]
  · intro env₂ draw₂ i₂ fc₂ t₂ f₂
    exact pathTaken_stepBody env₂ P draw₂ i₂ fc₂ t₂ f₂

/-- One-stream reset state for the C1 witness run. -/
def motC1 : MOT :=
  { size := (0, 0), detector_frame_skip := 5, draw := false,
    number_of_trackers := 1, trackers := [tEmpty], frame_counts := [0] }

/-- Frame schedule for the C1 witness run: frame `j` of the single stream
carries payload `j`. -/
def fsC1 : Nat → List (Option Frame) := fun j => [some j]

theorem mot_C1_witness :
    (stepRun envA motC1 fsC1 5).frame_counts[0]? = some 5 ∧
    pathTaken (stepTrace envA motC1 fsC1 0) 0 = some CadencePhase.coldStart ∧
    pathTaken (stepTrace envA motC1 fsC1 3) 0 = some CadencePhase.trackOnly ∧
    pathTaken (stepTrace envA motC1 fsC1 5) 0 = some CadencePhase.detectCycle :=
  ⟨(mot_C1 envA envA_ok motC1 1 5 (by decide) rfl (by decide) (by decide)
      (fun i hi => by
        have hi0 : i = 0 := by omega
        subst hi0
        rfl)
      fsC1 (fun _ => rfl)
      (fun j i hi => ⟨j, by
        have hi0 : i = 0 := by omega
        subst hi0
        rfl⟩) 5 0 (by decide)).1,
   (mot_C1 envA envA_ok motC1 1 5 (by decide) rfl (by decide) (by decide)
      (fun i hi => by
        have hi0 : i = 0 := by omega
        subst hi0
        rfl)
      fsC1 (fun _ => rfl)
      (fun j i hi => ⟨j, by
        have hi0 : i = 0 := by omega
        subst hi0
        rfl⟩) 0 0 (by decide)).2.2.1.mpr rfl,
   (mot_C1 envA envA_ok motC1 1 5 (by decide) rfl (by decide) (by decide)
      (fun i hi => by
        have hi0 : i = 0 := by omega
        subst hi0
        rfl)
      fsC1 (fun _ => rfl)
      (fun j i hi => ⟨j, by
        have hi0 : i = 0 := by omega
        subst hi0
        rfl⟩) 3 0 (by decide)).2.2.2.2.1.mpr ⟨by decide, by decide⟩,
   (mot_C1 envA envA_ok motC1 1 5 (by decide) rfl (by decide) (by decide)
      (fun i hi => by
        have hi0 : i = 0 := by omega
        subst hi0
        rfl)
      fsC1 (fun _ => rfl)
      (fun j i hi => ⟨j, by
        have hi0 : i = 0 := by omega
        subst hi0
        rfl⟩) 5 0 (by decide)).2.2.2.1.mpr ⟨by decide, by decide⟩⟩

/-- C4 counterexample: two streams with frame counts `[5, 3]`, period 5;
the detection join of stream 0 fails on frame 7.  The failing stream's
frame counter does not advance (stays 5, the claim requires 6), stream 1
is not processed at all in this call (counter stays 3, tracker untouched,
no collaborator call), contradicting both the counter-advance and the
cross-stream containment of the claim. -/
theorem mot_C4_counterexample :
    (MOT.step envB mot5 [some 7, some 8]).2.2 = some PyError.stageFailure ∧
    (MOT.step envB mot5 [some 7, some 8]).1.frame_counts = [5, 3] ∧
    (MOT.step envB mot5 [some 7, some 8]).1.trackers[1]? = mot5.trackers[1]? ∧
    (MOT.step envB mot5 [some 7, some 8]).2.1.filter
      (fun e => e.stream == 1) = [] := by
  decide

/-- Variant of `envA` whose extraction join raises on frame `7`. -/
def envC : Env :=
  { envA with
    extract_postprocess := fun f bs =>
      if f = 7 then Except.error ()
      else Except.ok (bs.map fun b => b + 1) }

/-- Three-stream state (counts `[5, 5, 3]`, period 5) whose middle stream
sits on a DetectCycle frame, used to exercise a failure with streams both
before and after the failing one. -/
def mot4 : MOT :=
  { size := (0, 0), detector_frame_skip := 5, draw := false,
    number_of_trackers := 3, trackers := [tEmpty, tEmpty, tEmpty],
    frame_counts := [5, 5, 3] }

/-- C4 (amended): for any stream count and any failing stream index `k`,
when the detection join (first implication) or the extraction join (second
implication) fails during stream `k`'s DetectCycle, the exception aborts
the entire `step` call: the cycle is abandoned with no tracker update for
stream `k` (its trace is exactly the calls made before the failing join —
flow registration only, or flow plus Kalman — so no `trackerUpdate`
occurs), stream `k`'s frame counter does not advance, the failure
propagates to the caller, streams processed earlier in the call keep
their normal updates (null earlier slots stay untouched, non-null earlier
slots advance and carry the full per-stream processing), and streams
after the failing one are not processed at all in that call. -/
theorem mot_C4_amended (env : Env) (s : MOT) (fs : List (Option Frame))
    (k : Nat) (f : Frame) (fc : Nat) (t : TrackerState)
    (hlen1 : fs.length ≤ s.frame_counts.length)
    (hlen2 : fs.length ≤ s.trackers.length)
    (hearlier : ∀ j f', j < k → fs[j]? = some (some f') →
      (∃ d, env.detect_postprocess f' = Except.ok d) ∧
      (∀ bs, ∃ e, env.extract_postprocess f' bs = Except.ok e))
    (hk : fs[k]? = some (some f))
    (hfc : s.frame_counts[k]? = some fc) (ht : s.trackers[k]? = some t)
    (hpos : 0 < fc) (hmod : fc % s.detector_frame_skip = 0) :
    (env.detect_postprocess f = Except.error () →
      (MOT.step env s fs).2.2 = some PyError.stageFailure ∧
      (MOT.step env s fs).1.frame_counts[k]? = some fc ∧
      (MOT.step env s fs).1.trackers[k]? = some (env.tComputeFlow t f) ∧
      (MOT.step env s fs).2.1.filter (fun e => e.stream == k) =
        [Event.detectAsync k f, Event.computeFlow k f] ∧
      (∀ j, j < k → fs[j]? = some none →
        (MOT.step env s fs).1.frame_counts[j]? = s.frame_counts[j]? ∧
        (MOT.step env s fs).1.trackers[j]? = s.trackers[j]?) ∧
      (∀ j f' fc' t', j < k → fs[j]? = some (some f') →
        s.frame_counts[j]? = some fc' → s.trackers[j]? = some t' →
        (MOT.step env s fs).1.frame_counts[j]? = some (fc' + 1) ∧
        (MOT.step env s fs).1.trackers[j]? =
          some (stepBody env s.detector_frame_skip s.draw j fc' t' f').2.1 ∧
        (MOT.step env s fs).2.1.filter (fun e => e.stream == j) =
          (stepBody env s.detector_frame_skip s.draw j fc' t' f').2.2.1) ∧
      (∀ j, k < j →
        (MOT.step env s fs).1.frame_counts[j]? = s.frame_counts[j]? ∧
        (MOT.step env s fs).1.trackers[j]? = s.trackers[j]? ∧
        (MOT.step env s fs).2.1.filter (fun e => e.stream == j) = [])) ∧
    (∀ dets, env.detect_postprocess f = Except.ok dets →
      env.extract_postprocess f (dets.map Detection.tlbr) = Except.error () →
      (MOT.step env s fs).2.2 = some PyError.stageFailure ∧
      (MOT.step env s fs).1.frame_counts[k]? = some fc ∧
      (MOT.step env s fs).1.trackers[k]? =
        some (env.tApplyKalman (env.tComputeFlow t f)) ∧
      (MOT.step env s fs).2.1.filter (fun e => e.stream == k) =
        [Event.detectAsync k f, Event.computeFlow k f,
         Event.detectJoin k dets,
         Event.extractAsync k f (dets.map Detection.tlbr),
         Event.applyKalman k] ∧
      (∀ j, j < k → fs[j]? = some none →
        (MOT.step env s fs).1.frame_counts[j]? = s.frame_counts[j]? ∧
        (MOT.step env s fs).1.trackers[j]? = s.trackers[j]?) ∧
      (∀ j f' fc' t', j < k → fs[j]? = some (some f') →
        s.frame_counts[j]? = some fc' → s.trackers[j]? = some t' →
        (MOT.step env s fs).1.frame_counts[j]? = some (fc' + 1) ∧
        (MOT.step env s fs).1.trackers[j]? =
          some (stepBody env s.detector_frame_skip s.draw j fc' t' f').2.1 ∧
        (MOT.step env s fs).2.1.filter (fun e => e.stream == j) =
          (stepBody env s.detector_frame_skip s.draw j fc' t' f').2.2.1) ∧
      (∀ j, k < j →
        (MOT.step env s fs).1.frame_counts[j]? = s.frame_counts[j]? ∧
        (MOT.step env s fs).1.trackers[j]? = s.trackers[j]? ∧
        (MOT.step env s fs).2.1.filter (fun e => e.stream == j) = [])) := by
  have hfcnz : ¬ fc = 0 := by omega
  constructor
  · intro hfail0
    have hbody : stepBody env s.detector_frame_skip s.draw k fc t f =
        (fc, env.tComputeFlow t f,
         [Event.detectAsync k f, Event.computeFlow k f],
         some PyError.stageFailure) := by
      unfold stepBody
      rw [if_neg hfcnz, if_pos hmod, hfail0]
    have hmain := stepList_fail env fs s 0 k f fc t (by omega) (by omega)
      hearlier hk (by simpa using hfc) (by simpa using ht)
      (by simp only [Nat.zero_add, hbody])
    simp only [Nat.zero_add, hbody] at hmain
    obtain ⟨herr, ⟨ha, hb, hc⟩, hearly, hlater⟩ := hmain
    exact ⟨herr, ha, hb, hc,
      fun j hj hnull => (hearly j hj).1 hnull,
      fun j f' fc' t' hj hf' hfc' ht' =>
        (hearly j hj).2 f' fc' t' hf' hfc' ht',
      hlater⟩
  · intro dets hdet hext
    have hbody : stepBody env s.detector_frame_skip s.draw k fc t f =
        (fc, env.tApplyKalman (env.tComputeFlow t f),
         [Event.detectAsync k f, Event.computeFlow k f,
          Event.detectJoin k dets,
          Event.extractAsync k f (dets.map Detection.tlbr),
          Event.applyKalman k],
         some PyError.stageFailure) := by
      unfold stepBody
      rw [if_neg hfcnz, if_pos hmod, hdet]
      simp only [hext]
    have hmain := stepList_fail env fs s 0 k f fc t (by omega) (by omega)
      hearlier hk (by simpa using hfc) (by simpa using ht)
      (by simp only [Nat.zero_add, hbody])
    simp only [Nat.zero_add, hbody] at hmain
    obtain ⟨herr, ⟨ha, hb, hc⟩, hearly, hlater⟩ := hmain
    exact ⟨herr, ha, hb, hc,
      fun j hj hnull => (hearly j hj).1 hnull,
      fun j f' fc' t' hj hf' hfc' ht' =>
        (hearly j hj).2 f' fc' t' hf' hfc' ht',
      hlater⟩

theorem mot_C4_amended_witness :
    ((MOT.step envB mot4 [some 1, some 7, some 8]).2.2 =
        some PyError.stageFailure ∧
      (MOT.step envB mot4 [some 1, some 7, some 8]).1.frame_counts[1]? =
        some 5 ∧
      (MOT.step envB mot4 [some 1, some 7, some 8]).1.frame_counts[0]? =
        some 6 ∧
      (MOT.step envB mot4 [some 1, some 7, some 8]).1.frame_counts[2]? =
        some 3 ∧
      (MOT.step envB mot4 [some 1, some 7, some 8]).2.1.filter
        (fun e => e.stream == 2) = []) ∧
    ((MOT.step envC mot4 [some 1, some 7, some 8]).2.2 =
        some PyError.stageFailure ∧
      (MOT.step envC mot4 [some 1, some 7, some 8]).1.frame_counts[1]? =
        some 5) := by
  have hearB : ∀ j f', j < 1 →
      ([some 1, some 7, some 8] : List (Option Frame))[j]? = some (some f') →
      (∃ d, envB.detect_postprocess f' = Except.ok d) ∧
      (∀ bs, ∃ e, envB.extract_postprocess f' bs = Except.ok e) := by
    intro j f' hj hf'
    have hj0 : j = 0 := by omega
    subst hj0
    have hf1 : (1 : Frame) = f' := by simpa using hf'
    subst hf1
    exact ⟨⟨_, rfl⟩, fun bs => ⟨_, rfl⟩⟩
  have hearC : ∀ j f', j < 1 →
      ([some 1, some 7, some 8] : List (Option Frame))[j]? = some (some f') →
      (∃ d, envC.detect_postprocess f' = Except.ok d) ∧
      (∀ bs, ∃ e, envC.extract_postprocess f' bs = Except.ok e) := by
    intro j f' hj hf'
    have hj0 : j = 0 := by omega
    subst hj0
    have hf1 : (1 : Frame) = f' := by simpa using hf'
    subst hf1
    exact ⟨⟨_, rfl⟩, fun bs => ⟨_, rfl⟩⟩
  have hB := (mot_C4_amended envB mot4 [some 1, some 7, some 8] 1 7 5 tEmpty
    (by decide) (by decide) hearB (by decide) (by decide) (by decide)
    (by decide) (by decide)).1 rfl
  have hC := (mot_C4_amended envC mot4 [some 1, some 7, some 8] 1 7 5 tEmpty
    (by decide) (by decide) hearC (by decide) (by decide) (by decide)
    (by decide) (by decide)).2 [{ tlbr := 107, label := 0, conf := 1 }]
    rfl rfl
  refine ⟨⟨hB.1, hB.2.1, ?_, ?_, ?_⟩, hC.1, hC.2.1⟩
  · exact (hB.2.2.2.2.2.1 0 1 5 tEmpty (by decide) (by decide) (by decide)
      (by decide)).1
  · exact (hB.2.2.2.2.2.2 2 (by decide)).1
  · exact (hB.2.2.2.2.2.2 2 (by decide)).2.2

/-- Two idle streams used to exhibit the absent count check of `step`. -/
def mot6 : MOT :=
  { size := (0, 0), detector_frame_skip := 5, draw := false,
    number_of_trackers := 2, trackers := [tEmpty, tEmpty],
    frame_counts := [0, 0] }

/-- C6 counterexample: `step` on a two-stream orchestrator with a single
input frame raises nothing and mutates stream 0 — the count mismatch is
neither fatal nor detected at entry, and the call is silently coerced to
the provided prefix of streams. -/
theorem mot_C6_counterexample :
    (MOT.step envA mot6 [some 1]).2.2 = none ∧
    (MOT.step envA mot6 [some 1]).1.frame_counts ≠ mot6.frame_counts := by
  decide

/-- C6 (amended): neither `step` nor `reset` validates the count match at
entry.  A `step` call with fewer frames than configured streams is not an
error: it processes exactly the provided positions and leaves every
remaining stream's frame count and tracker untouched.  A `reset` call
with more configurations than streams is not an error: the extra
configurations are silently ignored — the result coincides with resetting
from any configuration list agreeing on the first `number_of_trackers`
entries.  A `step` call with more (non-null) frames than configured
streams raises an index error only after every configured stream has
already been processed and advanced. -/
theorem mot_C6_amended (env : Env) (henv : EnvOk env) (s : MOT) :
    (∀ fs : List (Option Frame), fs.length ≤ s.frame_counts.length →
      fs.length ≤ s.trackers.length →
      (MOT.step env s fs).2.2 = none ∧
      ∀ j, fs.length ≤ j →
        (MOT.step env s fs).1.frame_counts[j]? = s.frame_counts[j]? ∧
        (MOT.step env s fs).1.trackers[j]? = s.trackers[j]?) ∧
    (∀ streams streams₂ : List StreamConfig,
      s.number_of_trackers ≤ s.trackers.length →
      s.number_of_trackers ≤ streams.length →
      s.number_of_trackers ≤ streams₂.length →
      (∀ i, i < s.number_of_trackers → streams[i]? = streams₂[i]?) →
      (MOT.reset s streams).2 = none ∧
      MOT.reset s streams = MOT.reset s streams₂) ∧
    (∀ fs : List (Option Frame),
      s.frame_counts.length = s.number_of_trackers →
      s.trackers.length = s.number_of_trackers →
      s.number_of_trackers < fs.length →
      (∀ j, j < fs.length → ∃ f, fs[j]? = some (some f)) →
      (MOT.step env s fs).2.2 = some PyError.indexError ∧
      (∀ j fc t, j < s.number_of_trackers → s.frame_counts[j]? = some fc →
        s.trackers[j]? = some t →
        (MOT.step env s fs).1.frame_counts[j]? = some (fc + 1))) := by
  refine ⟨?_, ?_, ?_⟩
  · intro fs hl1 hl2
    refine ⟨stepList_err_none env henv fs s 0 (by omega) (by omega), ?_⟩
    intro j hj
    exact stepList_getElem_ge env fs s 0 j (by omega)
  · intro streams streams₂ ht1 hs1 hs2 hagree
    obtain ⟨he, hf, hl, hun, hin, hsz, hskip, hdraw, hnum⟩ :=
      reset_spec s streams ht1 hs1
    obtain ⟨he2, hf2, hl2, hun2, hin2, hsz2, hskip2, hdraw2, hnum2⟩ :=
      reset_spec s streams₂ ht1 hs2
    refine ⟨he, ?_⟩
    have htrk : (MOT.reset s streams).1.trackers =
        (MOT.reset s streams₂).1.trackers := by
      apply List.ext_getElem?
      intro j
      by_cases hj : j < s.number_of_trackers
      · obtain ⟨cfg, hcfg⟩ : ∃ cfg, streams[j]? = some cfg := by
          rw [List.getElem?_eq_getElem (by omega)]
          exact ⟨_, rfl⟩
        have hcfg2 : streams₂[j]? = some cfg := by
          rw [← hagree j hj]
          exact hcfg
        rw [hin j cfg hj hcfg, hin2 j cfg hj hcfg2]
      · rw [hun j (by omega), hun2 j (by omega)]
    have hst : (MOT.reset s streams).1 = (MOT.reset s streams₂).1 := by
      ext1
      · rw [hsz, hsz2]
      · rw [hskip, hskip2]
      · rw [hdraw, hdraw2]
      · rw [hnum, hnum2]
      · rw [htrk]
      · rw [hf, hf2]
    have herr : (MOT.reset s streams).2 = (MOT.reset s streams₂).2 := by
      rw [he, he2]
    rcases hA : MOT.reset s streams with ⟨mA, eA⟩
    rcases hB : MOT.reset s streams₂ with ⟨mB, eB⟩
    rw [hA, hB] at hst herr
    simp only at hst herr
    rw [hst, herr]
  · intro fs hw1 hw2 hlen hnn
    have hov := stepList_overflow env henv fs s 0 (by omega)
      (by simp only [Nat.zero_add]; omega) hnn (by omega)
    refine ⟨hov.1, ?_⟩
    intro j fc t hj hfcj htj
    exact hov.2 j fc t (by omega) (by omega) hfcj htj

theorem mot_C6_amended_witness :
    ((MOT.step envA mot6 [some 1]).2.2 = none ∧
      (MOT.step envA mot6 [some 1]).1.frame_counts[1]? =
        mot6.frame_counts[1]? ∧
      (MOT.step envA mot6 [some 1]).1.trackers[1]? = mot6.trackers[1]?) ∧
    ((MOT.reset mot6 [⟨7⟩, ⟨8⟩, ⟨9⟩]).2 = none ∧
      MOT.reset mot6 [⟨7⟩, ⟨8⟩, ⟨9⟩] = MOT.reset mot6 [⟨7⟩, ⟨8⟩]) ∧
    ((MOT.step envA mot6 [some 1, some 2, some 3]).2.2 =
        some PyError.indexError ∧
      (MOT.step envA mot6 [some 1, some 2, some 3]).1.frame_counts[0]? =
        some 1 ∧
      (MOT.step envA mot6 [some 1, some 2, some 3]).1.frame_counts[1]? =
        some 1) :=
  ⟨⟨((mot_C6_amended envA envA_ok mot6).1 [some 1] (by decide) (by decide)).1,
    (((mot_C6_amended envA envA_ok mot6).1 [some 1] (by decide)
      (by decide)).2 1 (by decide)).1,
    (((mot_C6_amended envA envA_ok mot6).1 [some 1] (by decide)
      (by decide)).2 1 (by decide)).2⟩,
   (mot_C6_amended envA envA_ok mot6).2.1 [⟨7⟩, ⟨8⟩, ⟨9⟩] [⟨7⟩, ⟨8⟩]
     (by decide) (by decide) (by decide)
     (fun i hi => by
       have hi2 : i < 2 := hi
       have : i = 0 ∨ i = 1 := by omega
       rcases this with rfl | rfl <;> rfl),
   ⟨((mot_C6_amended envA envA_ok mot6).2.2 [some 1, some 2, some 3]
       (by decide) (by decide) (by decide)
       (fun j hj => by
         have hj3 : j < 3 := by simpa using hj
         have : j = 0 ∨ j = 1 ∨ j = 2 := by omega
         rcases this with rfl | rfl | rfl <;> exact ⟨_, rfl⟩)).1,
    ((mot_C6_amended envA envA_ok mot6).2.2 [some 1, some 2, some 3]
       (by decide) (by decide) (by decide)
       (fun j hj => by
         have hj3 : j < 3 := by simpa using hj
         have : j = 0 ∨ j = 1 ∨ j = 2 := by omega
         rcases this with rfl | rfl | rfl <;> exact ⟨_, rfl⟩)).2 0 0 tEmpty
       (by decide) (by decide) (by decide),
    ((mot_C6_amended envA envA_ok mot6).2.2 [some 1, some 2, some 3]
       (by decide) (by decide) (by decide)
       (fun j hj => by
         have hj3 : j < 3 := by simpa using hj
         have : j = 0 ∨ j = 1 ∨ j = 2 := by omega
         rcases this with rfl | rfl | rfl <;> exact ⟨_, rfl⟩)).2 1 0 tEmpty
       (by decide) (by decide) (by decide)⟩⟩

end FastMOT
